import Mathlib

/-!
# sysstatsrecorder: the recorder, startup sampling and the sampling loop

A shallow embedding of `cmd/sysstatsrecorder/main.go`.

* Go strings are Lean `String`s, a CSV row is a `List String`, file contents
  are `List Char`.
* `int64` values are `Int`s; `Time.UnixNano` wraps into the int64 range the way
  the Go arithmetic does, and `/` on `int64` is truncated division (`Int.tdiv`).
* The process-wide variables `csvFile` and `csvWriter` are fields of `World`,
  together with the number of clock readings taken so far and the lines printed
  to standard output.  A nil pointer is `none`; dereferencing it is a panic.
* What the imported packages compute and the program only passes along
  (`Time.String`, `strconv.FormatFloat`, the clock, the metrics queries) is a
  parameter: `Env` for the functions, arguments of `startup` / `tickBody` for
  the query results.
-/

namespace SysStatsRecorder

set_option maxRecDepth 100000

/-! ## Integers and decimal formatting (`strconv`) -/

/-- Largest `int64`. -/
def maxInt64 : Int := 9223372036854775807

/-- Smallest `int64`. -/
def minInt64 : Int := -9223372036854775808

/-- Two's-complement wrap of a mathematical integer into the `int64` range. -/
def wrapInt64 (x : Int) : Int := (x + 9223372036854775808) % 18446744073709551616 - 9223372036854775808

/-- The byte `'0' + d`. -/
def digitChar (d : Nat) : Char := Char.ofNat (48 + d)

/-- The base-10 digit loop of `strconv.formatBits`:
`for u >= 10 { q := u / 10; a[i] = '0' + u - q*10; u = q }; a[i] = '0' + u`.
The digits are produced least significant first and stored right to left. -/
def formatBits : Nat → Nat → List Char → List Char
  | 0, _, acc => acc
  | fuel + 1, u, acc =>
    if 10 ≤ u then formatBits fuel (u / 10) (digitChar (u % 10) :: acc)
    else digitChar u :: acc

/-- Decimal digits of an unsigned value. -/
def decimalDigits (u : Nat) : List Char := formatBits (u + 1) u []

/-- Go's `strconv.FormatUint(u, 10)`. -/
def formatUint (u : Nat) : String := String.mk (decimalDigits u)

/-- Go's `strconv.FormatInt(i, 10)`: a minus sign and the digits of `-i` when `i < 0`. -/
def formatInt (i : Int) : String :=
  if i < 0 then String.mk ('-' :: decimalDigits i.natAbs) else String.mk (decimalDigits i.toNat)

/-- Go's `strconv.Itoa(i)`, which is `FormatInt(int64(i), 10)`. -/
def itoa (i : Int) : String := formatInt i

/-- Value of a decimal digit character. -/
def digitVal (c : Char) : Option Nat :=
  if 48 ≤ c.toNat ∧ c.toNat ≤ 57 then some (c.toNat - 48) else none

/-- Reads a run of decimal digits, most significant first. -/
def readDigits : List Char → Nat → Option Nat
  | [], acc => some acc
  | c :: cs, acc =>
    match digitVal c with
    | some d => readDigits cs (acc * 10 + d)
    | none => none

/-- Reader side of the epoch-milliseconds column: an optional minus sign followed by
one or more decimal digits, read as an integer. -/
def parseInt (s : String) : Option Int :=
  match s.data with
  | [] => none
  | c :: cs =>
    if c = '-' then (if cs = [] then none else (readDigits cs 0).map (fun n => -(n : Int)))
    else (readDigits (c :: cs) 0).map (fun n => (n : Int))

/-! ## Time -/

/-- An instant: whole seconds since the Unix epoch and the nanoseconds within the second. -/
structure Time where
  sec : Int
  nsec : Nat
  deriving DecidableEq, Repr

/-- Nanoseconds since the Unix epoch, as a mathematical integer. -/
def Time.nanos (t : Time) : Int := t.sec * 1000000000 + (t.nsec : Int)

/-- Go's `Time.UnixNano`: `sec*1e9 + nsec` computed in `int64`. -/
def Time.UnixNano (t : Time) : Int := wrapInt64 (t.sec * 1000000000 + (t.nsec : Int))

/-- A `float64`, kept as its bit pattern; the program only formats such values. -/
structure Float64 where
  bits : Nat
  deriving DecidableEq, Repr

/-- Library functions the program calls and whose result it passes along unchanged,
and the clock. -/
structure Env where
  /-- The method `(time.Time).String`. -/
  timeString : Time → String
  /-- The call `strconv.FormatFloat(x, 'f', 2, 64)`. -/
  formatFloat : Float64 → String
  /-- The reading returned by the `k`-th call of `time.Now()`, counted from 0. -/
  now : Nat → Time

/-! ## `encoding/csv` writer, `bufio` and the file -/

/-- A CSV row. -/
abbrev Row := List String

/-- Go's `unicode.IsSpace`. -/
def isSpace (c : Char) : Bool :=
  let n := c.toNat
  n = 9 || n = 10 || n = 11 || n = 12 || n = 13 || n = 32 || n = 133 || n = 160 ||
  n = 5760 || (8192 ≤ n && n ≤ 8202) || n = 8232 || n = 8233 || n = 8239 || n = 8287 ||
  n = 12288

/-- Modelled from the spec: `(*csv.Writer).fieldNeedsQuotes` of the imported `encoding/csv`
package (not part of the repository's sources), for the default comma.  An empty field
is left bare; the field `\.`, a field holding a comma, a quote or a line break, and a
field starting with a space are quoted. -/
def fieldNeedsQuotes (field : List Char) : Bool :=
  match field with
  | [] => false
  | r1 :: _ =>
    if field = ['\\', '.'] then true
    else if field.any (fun c => c = '\n' || c = '\r' || c = '"' || c = ',') then true
    else isSpace r1

/-- Modelled from the spec: the body of a quoted field as `(*csv.Writer).Write` emits it
with `UseCRLF` unset: a quote is doubled, every other character is copied. -/
def escapeQuoted : List Char → List Char
  | [] => []
  | c :: cs => if c = '"' then '"' :: '"' :: escapeQuoted cs else c :: escapeQuoted cs

/-- Modelled from the spec: one field as `(*csv.Writer).Write` emits it (standard CSV
quoting). -/
def encodeField (field : String) : List Char :=
  if fieldNeedsQuotes field.data then '"' :: (escapeQuoted field.data ++ ['"']) else field.data

/-- Fields after the first: each preceded by the comma. -/
def encodeRest : List String → List Char
  | [] => []
  | f :: fs => ',' :: (encodeField f ++ encodeRest fs)

/-- Modelled from the spec: the line `(*csv.Writer).Write(record)` appends to its buffer:
the encoded fields separated by commas, ended by a line feed. -/
def csvLine : Row → List Char
  | [] => ['\n']
  | f :: fs => encodeField f ++ (encodeRest fs ++ ['\n'])

/-- The text of a sequence of rows. -/
def csvText : List Row → List Char
  | [] => []
  | r :: rs => csvLine r ++ csvText rs

/-- An `os.File` opened for writing: what has reached durable storage, what has been
written but not yet synced, and how often `Close` succeeded. -/
structure File where
  persisted : List Char
  unsynced : List Char
  closes : Nat
  deriving DecidableEq, Repr

/-- The file descriptor has been closed. -/
def File.closed (f : File) : Bool := decide (0 < f.closes)

/-- The file `os.Create` returns on success: empty and open. -/
def File.create : File := { persisted := [], unsynced := [], closes := 0 }

/-- The method `(*os.File).Write`: appends, fails on a closed file (nothing written). -/
def File.write (f : File) (data : List Char) : File :=
  if f.closed then f else { f with unsynced := f.unsynced ++ data }

/-- The method `(*os.File).Sync`: everything written so far becomes durable; fails on a closed file. -/
def File.sync (f : File) : File :=
  if f.closed then f else { f with persisted := f.persisted ++ f.unsynced, unsynced := [] }

/-- The method `(*os.File).Close`: fails on a file that is closed already. -/
def File.close (f : File) : File :=
  if f.closed then f else { f with closes := f.closes + 1 }

/-- The `csv.Writer` made by `csv.NewWriter(csvFile)`: the bytes its `bufio.Writer`
holds back.  (When the 4096-byte buffer fills, `bufio` hands a prefix of it to the file
early; `Flush`, which follows every `Write` of the program, hands over the rest, so the
byte sequence reaching the file is the same.) -/
structure Writer where
  buf : List Char
  deriving DecidableEq, Repr

/-- The writer `csv.NewWriter` returns. -/
def Writer.new : Writer := { buf := [] }

/-- The method `(*csv.Writer).Write(row)`: the line of the row goes to the buffer. -/
def Writer.write (w : Writer) (row : Row) : Writer := { buf := w.buf ++ csvLine row }

/-- The process-wide variables, the count of clock readings and standard output. -/
structure World where
  csvFile : Option File
  csvWriter : Option Writer
  clock : Nat
  stdout : List String
  deriving DecidableEq, Repr

/-- The call `csvWriter.Flush()`: the buffer goes to the file the writer was made for.  With a nil
or closed file the write fails and the buffer is kept. -/
def flush (wr : Writer) (file : Option File) : Writer × Option File :=
  match file with
  | none => (wr, none)
  | some f => if f.closed then (wr, some f) else ({ buf := [] }, some (f.write wr.buf))

/-- The call `csvFile.Sync()`; on a nil file it returns an error and does nothing. -/
def syncFile (file : Option File) : Option File := file.map File.sync

/-- The three statements `csvWriter.Write(row); csvWriter.Flush(); csvFile.Sync()`. -/
def writeFlushSync (wr : Writer) (row : Row) (w : World) : World :=
  let flushed := flush (wr.write row) w.csvFile
  { w with csvWriter := some flushed.1, csvFile := syncFile flushed.2 }

/-! ## The recorder -/

/-- The row literal of `writeHeader`. -/
def headerRow : Row := ["timeStamp", "millisSinceUnixEpoch", "quantity", "value", "unit"]

/-- The function `writeHeader`.  `none` is the nil-pointer panic of `csvWriter.Write` when the file is
set and the writer is not. -/
def writeHeader (w : World) : Option World :=
  match w.csvFile with
  | none => some w
  | some _ =>
    match w.csvWriter with
    | none => none
    | some wr => some (writeFlushSync wr headerRow w)

/-- The row literal of `recordWithPredefinedTimeStamp`. -/
def recordRow (env : Env) (dt : Time) (quantity value unit : String) : Row :=
  [env.timeString dt, formatInt (Int.tdiv dt.UnixNano 1000000), quantity, value, unit]

/-- The function `recordWithPredefinedTimeStamp`. -/
def recordWithPredefinedTimeStamp (env : Env) (dt : Time) (quantity value unit : String)
    (w : World) : World :=
  let row := recordRow env dt quantity value unit
  match w.csvWriter with
  | none => w
  | some wr => writeFlushSync wr row w

/-- The function `record`: takes a clock reading and records with it. -/
def record (env : Env) (quantity value unit : String) (w : World) : World :=
  recordWithPredefinedTimeStamp env (env.now w.clock) quantity value unit
    { w with clock := w.clock + 1 }

/-- The sink is initialised: `csvFile` and `csvWriter` are set and the file is open. -/
def World.initialised (w : World) : Prop :=
  ∃ f wr, w.csvFile = some f ∧ w.csvWriter = some wr ∧ f.closed = false

/-- Durable content of the file (empty when there is no file). -/
def World.persisted (w : World) : List Char :=
  match w.csvFile with
  | none => []
  | some f => f.persisted

/-- Bytes written or buffered that are not yet durable. -/
def World.pending (w : World) : List Char :=
  (match w.csvFile with | none => [] | some f => f.unsynced) ++
  (match w.csvWriter with | none => [] | some wr => wr.buf)

/-- The sink is initialised and at rest: the file is open and holds exactly `p` durably,
nothing is written but unsynced, nothing is buffered. -/
def World.onDisk (w : World) (p : List Char) : Prop :=
  w.csvFile = some { persisted := p, unsynced := [], closes := 0 } ∧
  w.csvWriter = some { buf := [] }

/-- The world right after `os.Create` and `csv.NewWriter` succeeded. -/
def World.fresh : World :=
  { csvFile := some File.create, csvWriter := some Writer.new, clock := 1, stdout := [] }

/-! ## The metrics source (`gopsutil`) -/

/-- The fields of `cpu.InfoStat` that `main` reads. -/
structure CpuInfoStat where
  VendorID : String
  Family : String
  /-- An `int32`. -/
  Cores : Int
  ModelName : String
  Mhz : Float64
  deriving DecidableEq, Repr

/-- The fields of `host.InfoStat` that `main` reads. -/
structure HostInfoStat where
  Hostname : String
  /-- A `uint64`. -/
  Uptime : Nat
  OS : String
  Platform : String
  deriving DecidableEq, Repr

/-- The fields of `mem.VirtualMemoryStat` that `main` reads. -/
structure VirtualMemoryStat where
  Total : Nat
  Available : Nat
  UsedPercent : Float64
  deriving DecidableEq, Repr

/-- What a query of the metrics source returns: a value and an error (`none` is `nil`). -/
structure Query (α : Type) where
  value : α
  err : Option String

/-- The statement `if err != nil { fmt.Println(err) }`. -/
def reportErr (err : Option String) (w : World) : World :=
  match err with
  | none => w
  | some e => { w with stdout := w.stdout ++ [e] }

/-- How a section of `main` ends. -/
inductive Result where
  /-- Control reached the end of the section. -/
  | ok (w : World)
  /-- A nil pointer was dereferenced; the process aborts in state `w`. -/
  | panic (w : World)
  /-- The exit of `log.Fatal`. -/
  | fatal (w : World)
  deriving DecidableEq, Repr

/-- The state a section of `main` ends in. -/
def Result.world : Result → World
  | .ok w => w
  | .panic w => w
  | .fatal w => w

/-! ## `main`: startup -/

/-- The body of the loop over `cpuStat` for one CPU, lines 93 to 98, once `hostStat` has been
dereferenced. -/
def cpuRecords (env : Env) (dt : Time) (hostStat : HostInfoStat) (idx : Nat)
    (cpuinfo : CpuInfoStat) (w : World) : World :=
  let w1 := recordWithPredefinedTimeStamp env dt "hostname" hostStat.Hostname "-" w
  let w2 := recordWithPredefinedTimeStamp env dt ("CPU " ++ itoa idx ++ " VendorID")
    cpuinfo.VendorID "-" w1
  let w3 := recordWithPredefinedTimeStamp env dt ("CPU " ++ itoa idx ++ " Family")
    cpuinfo.Family "-" w2
  let w4 := recordWithPredefinedTimeStamp env dt ("CPU " ++ itoa idx ++ " Number of cores")
    (formatInt cpuinfo.Cores) "-" w3
  let w5 := recordWithPredefinedTimeStamp env dt ("CPU " ++ itoa idx ++ " Model Name")
    cpuinfo.ModelName "-" w4
  recordWithPredefinedTimeStamp env dt ("CPU " ++ itoa idx ++ " Speed")
    (env.formatFloat cpuinfo.Mhz) "MHz" w5

/-- The loop `for idx, cpuinfo := range cpuStat`.  Its first statement reads
`hostStat.Hostname`, a panic when `hostStat` is nil. -/
def cpuLoop (env : Env) (dt : Time) (hostStat : Option HostInfoStat) :
    Nat → List CpuInfoStat → World → Result
  | _, [], w => .ok w
  | idx, cpuinfo :: rest, w =>
    match hostStat with
    | none => .panic w
    | some h => cpuLoop env dt hostStat (idx + 1) rest (cpuRecords env dt h idx cpuinfo w)

/-- Lines 101 to 104: the four host records.  The first argument list reads
`hostStat.Hostname`. -/
def hostRecords (env : Env) (hostStat : Option HostInfoStat) (w : World) : Result :=
  match hostStat with
  | none => .panic w
  | some h =>
    let w1 := record env "Hostname" h.Hostname "-" w
    let w2 := record env "Uptime" (formatUint h.Uptime) "s" w1
    let w3 := record env "OS" h.OS "-" w2
    .ok (record env "Platform" h.Platform "-" w3)

/-- The state `main` starts in: no file, no writer, no clock reading taken. -/
def World.init : World := { csvFile := none, csvWriter := none, clock := 0, stdout := [] }

/-- Lines 91 to 104 of `main`: the CPU records with one shared clock reading, then the
host records. -/
def staticRecords (env : Env) (cpuStat : List CpuInfoStat) (hostStat : Option HostInfoStat)
    (w : World) : Result :=
  let dt := env.now w.clock
  match cpuLoop env dt hostStat 0 cpuStat { w with clock := w.clock + 1 } with
  | .ok w1 => hostRecords env hostStat w1
  | r => r

/-- Lines 72 to 104 of `main`: create the file (its name uses the first clock reading), make
the writer, query CPU and host facts, write the header, then the static records.
`createErr` is the error of `os.Create`. -/
def startup (env : Env) (createErr : Option String) (cpu : Query (List CpuInfoStat))
    (host : Query (Option HostInfoStat)) : Result :=
  let w0 : World := { World.init with clock := World.init.clock + 1 }
  match createErr with
  | some _ => .fatal w0
  | none =>
    let w1 : World := { w0 with csvFile := some File.create, csvWriter := some Writer.new }
    let w3 := reportErr host.err (reportErr cpu.err w1)
    match writeHeader w3 with
    | none => .panic w3
    | some w4 => staticRecords env cpu.value host.value w4

/-! ## `main`: the body of a tick -/

/-- The loop `for idx, cpupercent := range percentage`. -/
def utilRecords (env : Env) (dt : Time) : Nat → List Float64 → World → World
  | _, [], w => w
  | idx, cpupercent :: rest, w =>
    utilRecords env dt (idx + 1) rest
      (recordWithPredefinedTimeStamp env dt ("Current CPU utilization: [" ++ itoa idx ++ "]")
        (env.formatFloat cpupercent) "%" w)

/-- The three memory records, guarded by `vmStat != nil`. -/
def memRecords (env : Env) (dt : Time) (vmStat : Option VirtualMemoryStat) (w : World) : World :=
  match vmStat with
  | none => w
  | some v =>
    let w1 := recordWithPredefinedTimeStamp env dt "Total memory" (formatUint v.Total) "Bytes" w
    let w2 := recordWithPredefinedTimeStamp env dt "Available memory"
      (formatUint v.Available) "Bytes" w1
    recordWithPredefinedTimeStamp env dt "Percentage used memory"
      (env.formatFloat v.UsedPercent) "%" w2

/-- One tick's worth of metrics-source answers. -/
structure TickInput where
  percentage : Query (List Float64)
  vmStat : Query (Option VirtualMemoryStat)

/-- Lines 115 to 134: the case `<-ticker.C` of the sampling goroutine. -/
def tickBody (env : Env) (t : TickInput) (w : World) : World :=
  let w1 := reportErr t.percentage.err w
  let w2 := reportErr t.vmStat.err w1
  let dt := env.now w2.clock
  let w3 : World := { w2 with clock := w2.clock + 1 }
  let w4 := utilRecords env dt 0 t.percentage.value w3
  memRecords env dt t.vmStat.value w4

/-- The ticks the goroutine processes, one after the other. -/
def runTicks (env : Env) : List TickInput → World → World
  | [], w => w
  | t :: ts, w => runTicks env ts (tickBody env t w)

/-- A run of `main` up to some moment before the interrupt: startup, then the ticks
processed so far. -/
def mainRun (env : Env) (createErr : Option String) (cpu : Query (List CpuInfoStat))
    (host : Query (Option HostInfoStat)) (ticks : List TickInput) : Result :=
  match startup env createErr cpu host with
  | .ok w => .ok (runTicks env ticks w)
  | r => r

/-! ## A CSV reader (RFC 4180)

The reader side of "parsing the written text as CSV".  It follows the grammar of RFC 4180:
records end with a line break (LF or CRLF; the last one may lack it), fields are separated
by commas, a field is either bare (no quote, comma or line break in it) or enclosed in
double quotes, where a quote is written twice and every other character, line breaks
included, stands for itself.  Blank lines are skipped.  Malformed text is rejected. -/

/-- Where the reader is within a record. -/
inductive ReadState where
  /-- At the start of a field. -/
  | fieldStart
  /-- Inside a bare field. -/
  | bare
  /-- Inside a quoted field. -/
  | quoted
  /-- Right after a quote inside a quoted field. -/
  | quoteSeen
  /-- Right after a carriage return that ends a record; a line feed must follow. -/
  | crSeen
  deriving DecidableEq, Repr

/-- Puts a finished record in front of the records read from the rest of the text; an empty
record (a blank line) is dropped. -/
def emitRecord (row : Row) (rest : Option (List Row)) : Option (List Row) :=
  if row = [] then rest else rest.map (fun rows => row :: rows)

/-- The reader: remaining text, state, characters of the current field, fields of the
current record. -/
def readCSV : List Char → ReadState → List Char → Row → Option (List Row)
  | [], st, fld, row =>
    match st with
    | .fieldStart => some (if row = [] then [] else [row ++ [""]])
    | .bare => some [row ++ [String.mk fld]]
    | .quoted => none
    | .quoteSeen => some [row ++ [String.mk fld]]
    | .crSeen => none
  | c :: cs, st, fld, row =>
    match st with
    | .fieldStart =>
      if c = '"' then readCSV cs .quoted [] row
      else if c = ',' then readCSV cs .fieldStart [] (row ++ [""])
      else if c = '\n' then
        emitRecord (if row = [] then [] else row ++ [""]) (readCSV cs .fieldStart [] [])
      else if c = '\r' then readCSV cs .crSeen [] (if row = [] then [] else row ++ [""])
      else readCSV cs .bare [c] row
    | .bare =>
      if c = '"' then none
      else if c = ',' then readCSV cs .fieldStart [] (row ++ [String.mk fld])
      else if c = '\n' then emitRecord (row ++ [String.mk fld]) (readCSV cs .fieldStart [] [])
      else if c = '\r' then readCSV cs .crSeen [] (row ++ [String.mk fld])
      else readCSV cs .bare (fld ++ [c]) row
    | .quoted =>
      if c = '"' then readCSV cs .quoteSeen fld row
      else readCSV cs .quoted (fld ++ [c]) row
    | .quoteSeen =>
      if c = '"' then readCSV cs .quoted (fld ++ ['"']) row
      else if c = ',' then readCSV cs .fieldStart [] (row ++ [String.mk fld])
      else if c = '\n' then emitRecord (row ++ [String.mk fld]) (readCSV cs .fieldStart [] [])
      else if c = '\r' then readCSV cs .crSeen [] (row ++ [String.mk fld])
      else none
    | .crSeen =>
      if c = '\n' then emitRecord row (readCSV cs .fieldStart [] [])
      else none

/-- Parses a text as CSV. -/
def parseCSV (text : List Char) : Option (List Row) := readCSV text .fieldStart [] []

/-- No character of the field is a quote, a comma or a line break. -/
def plainChars (field : List Char) : Prop :=
  ∀ c ∈ field, c ≠ '"' ∧ c ≠ ',' ∧ c ≠ '\n' ∧ c ≠ '\r'

/-! ## Emissions -/

/-- A call of one of the two record functions. -/
inductive Call where
  /-- A call `record(quantity, value, unit)`. -/
  | record (quantity value unit : String)
  /-- A call `recordWithPredefinedTimeStamp(dt, quantity, value, unit)`. -/
  | recordAt (dt : Time) (quantity value unit : String)

/-- Makes the call. -/
def Call.run (env : Env) : Call → World → World
  | .record q v u, w => SysStatsRecorder.record env q v u w
  | .recordAt dt q v u, w => recordWithPredefinedTimeStamp env dt q v u w

/-- Makes the calls one after the other. -/
def runCalls (env : Env) : List Call → World → World
  | [], w => w
  | c :: cs, w => runCalls env cs (c.run env w)

/-- The rows that a sequence of calls builds when `clock` readings have been taken before
it: a `record` call uses the next reading. -/
def callRows (env : Env) : Nat → List Call → List Row
  | _, [] => []
  | clock, .record q v u :: cs => recordRow env (env.now clock) q v u :: callRows env (clock + 1) cs
  | clock, .recordAt dt q v u :: cs => recordRow env dt q v u :: callRows env clock cs

/-- A record emitted with the `k`-th clock reading. -/
structure Emission where
  k : Nat
  quantity : String
  value : String
  unit : String

/-- The row of an emission. -/
def Emission.row (env : Env) (e : Emission) : Row :=
  recordRow env (env.now e.k) e.quantity e.value e.unit

/-- The epoch-milliseconds value the code computes for the `k`-th reading. -/
def millisAt (env : Env) (k : Nat) : Int := Int.tdiv (env.now k).UnixNano 1000000

/-- The sink is at rest and holds the header followed by the rows of `es`, whose readings
are taken in order and lie before the next reading. -/
def Trace (env : Env) (w : World) (es : List Emission) : Prop :=
  w.onDisk (csvText (headerRow :: es.map (Emission.row env))) ∧
  (es.map (fun e => e.k)).Pairwise (fun a b => a ≤ b) ∧
  ∀ e ∈ es, e.k < w.clock

/-- The sink holds the header followed by the rows of some emissions in reading order. -/
def Traced (env : Env) (w : World) : Prop := ∃ es, Trace env w es

/-- The epoch-milliseconds column of a row, read as an integer. -/
def rowMillis (r : Row) : Option Int := (r.get? 1).bind parseInt

/-! ## The sampling goroutine and the interrupt handling as a step relation -/

/-- The calls of the loop `for idx, cpupercent := range percentage`. -/
def utilCalls (env : Env) (dt : Time) : Nat → List Float64 → List Call
  | _, [] => []
  | idx, cpupercent :: rest =>
    .recordAt dt ("Current CPU utilization: [" ++ itoa idx ++ "]") (env.formatFloat cpupercent) "%"
      :: utilCalls env dt (idx + 1) rest

/-- The calls guarded by `vmStat != nil`. -/
def memCalls (env : Env) (dt : Time) : Option VirtualMemoryStat → List Call
  | none => []
  | some v =>
    [.recordAt dt "Total memory" (formatUint v.Total) "Bytes",
     .recordAt dt "Available memory" (formatUint v.Available) "Bytes",
     .recordAt dt "Percentage used memory" (env.formatFloat v.UsedPercent) "%"]

/-- Lines 115 to 125 of a tick: the two queries with their error reports and the clock
reading. -/
def tickPrologue (t : TickInput) (w : World) : World :=
  { reportErr t.vmStat.err (reportErr t.percentage.err w) with
    clock := (reportErr t.vmStat.err (reportErr t.percentage.err w)).clock + 1 }

/-- The clock reading `dt` of a tick that starts in world `w`. -/
def tickReading (env : Env) (t : TickInput) (w : World) : Time :=
  env.now (reportErr t.vmStat.err (reportErr t.percentage.err w)).clock

/-- The record calls of a tick whose clock reading is `dt`, in program order. -/
def tickCalls (env : Env) (dt : Time) (t : TickInput) : List Call :=
  utilCalls env dt 0 t.percentage.value ++ memCalls env dt t.vmStat.value

/-- Lines 147 to 155: print `Ticker stopped`, then under the write lock flush the writer,
sync and close the file.  `none` is the nil-pointer panic of `csvWriter.Flush`. -/
def shutdownSink (w : World) : Option World :=
  match w.csvWriter with
  | none => none
  | some wr =>
    let flushed := flush wr w.csvFile
    some { w with
      csvWriter := some flushed.1,
      csvFile := (syncFile flushed.2).map File.close,
      stdout := w.stdout ++ ["Ticker stopped"] }

/-- Where the main goroutine is from line 142 on. -/
inductive MainPc where
  /-- Blocked in `<-interrupt`. -/
  | waiting
  /-- The interrupt was received; `ticker.Stop()` is next. -/
  | interrupted
  /-- Blocked in `done <- true`. -/
  | sending
  /-- The send completed; the locked flush, sync and close are next. -/
  | closing
  /-- After the return of `main`. -/
  | exited
  deriving DecidableEq, Repr

/-- Where the sampling goroutine is. -/
inductive LoopPc where
  /-- RUNNING, blocked in the `select`. -/
  | running
  /-- RUNNING, inside the body of a tick with these record calls still to make. -/
  | inTick (pending : List Call)
  /-- STOPPED: `done` was received and the goroutine returned. -/
  | stopped

/-- The state of the two goroutines, the ticker and the sink. -/
structure Sys where
  world : World
  main : MainPc
  loop : LoopPc
  /-- A tick waits in the ticker's channel (capacity one). -/
  tickQueued : Bool
  tickerStopped : Bool

/-- One atomic step of the system.  A record call is atomic because it runs under the write
lock, as does the final flush, sync and close.  `done` is unbuffered: the send of the main
goroutine and the receive in the `select` happen together. -/
inductive Step (env : Env) : Sys → Sys → Prop where
  /-- The ticker fires (a tick that finds the channel full is dropped). -/
  | fire (s : Sys) : s.tickerStopped = false → Step env s { s with tickQueued := true }
  /-- The `select` takes the case `<-ticker.C`: queries, error reports, clock reading. -/
  | takeTick (s : Sys) (t : TickInput) : s.loop = .running → s.tickQueued = true →
      Step env s { s with
        loop := .inTick (tickCalls env (tickReading env t s.world) t),
        tickQueued := false,
        world := tickPrologue t s.world }
  /-- The next record call of the tick. -/
  | emit (s : Sys) (c : Call) (cs : List Call) : s.loop = .inTick (c :: cs) →
      Step env s { s with world := c.run env s.world, loop := .inTick cs }
  /-- The body of the tick is finished; back to the `select`. -/
  | tickDone (s : Sys) : s.loop = .inTick [] → Step env s { s with loop := .running }
  /-- The interrupt arrives. -/
  | interrupt (s : Sys) : s.main = .waiting → Step env s { s with main := .interrupted }
  /-- The call `ticker.Stop()`. -/
  | stopTicker (s : Sys) : s.main = .interrupted →
      Step env s { s with main := .sending, tickerStopped := true }
  /-- The `select` takes the case `<-done` while `main` sends. -/
  | handshake (s : Sys) : s.main = .sending → s.loop = .running →
      Step env s { s with main := .closing, loop := .stopped }
  /-- The final flush, sync and close, and the return of `main`. -/
  | close (s : Sys) (w' : World) : s.main = .closing → shutdownSink s.world = some w' →
      Step env s { s with main := .exited, world := w' }

/-- The system right after a startup that reached line 106. -/
def Sys.start (w : World) : Sys :=
  { world := w, main := .waiting, loop := .running, tickQueued := false, tickerStopped := false }

/-- States the system can be in during a run whose startup succeeded. -/
inductive Reachable (env : Env) : Sys → Prop where
  | start (cpu : Query (List CpuInfoStat)) (host : Query (Option HostInfoStat)) (w : World) :
      startup env none cpu host = .ok w → Reachable env (Sys.start w)
  | step (s s' : Sys) : Reachable env s → Step env s s' → Reachable env s'

/-- How often `Close` succeeded on the sink's file. -/
def World.closes (w : World) : Nat :=
  match w.csvFile with
  | none => 0
  | some f => f.closes

/-- The sink holds whole rows only: the file is there with nothing pending, the writer
buffer is empty, the durable text is the header line followed by lines of five-field rows,
and the file has been closed `closes` times. -/
def SinkWhole (w : World) (closes : Nat) : Prop :=
  ∃ rows : List Row,
    w.csvFile = some { persisted := csvText (headerRow :: rows), unsynced := [], closes := closes } ∧
    w.csvWriter = some { buf := [] } ∧
    ∀ r ∈ rows, r.length = 5

/-- The invariant of the step relation. -/
structure Inv (s : Sys) : Prop where
  sink : SinkWhole s.world (if s.main = .exited then 1 else 0)
  stopped : s.loop = .stopped ↔ (s.main = .closing ∨ s.main = .exited)
  ticker : (s.main = .sending ∨ s.main = .closing ∨ s.main = .exited) → s.tickerStopped = true

/-! ## Sample inputs and specification-side listings -/

/-- A sample environment: the clock advances one second per reading from 1700000000 s
(and stands still after a million readings), a time prints as its seconds, a float prints
as its bit pattern. -/
def sampleEnv : Env :=
  { timeString := fun t => formatInt t.sec,
    formatFloat := fun x => formatUint x.bits,
    now := fun k => { sec := 1700000000 + ((min k 1000000 : Nat) : Int), nsec := 0 } }

/-- A sample CPU identity. -/
def sampleCpu : CpuInfoStat :=
  { VendorID := "GenuineIntel", Family := "6", Cores := 4, ModelName := "Core", Mhz := ⟨2400⟩ }

/-- A sample host identity. -/
def sampleHost : HostInfoStat :=
  { Hostname := "box", Uptime := 77, OS := "linux", Platform := "debian" }

/-- A sample environment whose clock passes the last instant an `int64` nanosecond count
can hold: the first three readings are 2262-04-11 23:47:16.854775807 UTC, the later ones
the start of the next second. -/
def lateEnv : Env :=
  { timeString := fun _ => "t",
    formatFloat := fun x => formatUint x.bits,
    now := fun k => if k ≤ 2 then { sec := 9223372036, nsec := 854775807 }
                    else { sec := 9223372037, nsec := 0 } }

/-- The world after a sample startup: no CPU, the sample host. -/
def sampleStart : World :=
  (startup sampleEnv none ⟨[], none⟩ ⟨some sampleHost, none⟩).world

/-- The sample world after the shutdown of the sink. -/
def sampleFinal : World := (shutdownSink sampleStart).getD sampleStart

/-- The sample system after the interrupt was handled to the end. -/
def sampleFinalSys : Sys :=
  { world := sampleFinal, main := .exited, loop := .stopped, tickQueued := false,
    tickerStopped := true }

/-- The startup rows as the specification lists them: for each CPU index the five identity
attributes and nothing else, then the four host rows.  This follows the specification's
words, not the code. -/
def specStartupRows (env : Env) (cpus : List CpuInfoStat) (h : HostInfoStat) : List Row :=
  (cpus.enum.flatMap (fun ic =>
    [recordRow env (env.now 1) ("CPU " ++ toString ic.1 ++ " VendorID") ic.2.VendorID "-",
     recordRow env (env.now 1) ("CPU " ++ toString ic.1 ++ " Family") ic.2.Family "-",
     recordRow env (env.now 1) ("CPU " ++ toString ic.1 ++ " Number of cores")
       (toString ic.2.Cores) "-",
     recordRow env (env.now 1) ("CPU " ++ toString ic.1 ++ " Model Name") ic.2.ModelName "-",
     recordRow env (env.now 1) ("CPU " ++ toString ic.1 ++ " Speed")
       (env.formatFloat ic.2.Mhz) "MHz"]))
  ++ [recordRow env (env.now 2) "Hostname" h.Hostname "-",
      recordRow env (env.now 3) "Uptime" (toString h.Uptime) "s",
      recordRow env (env.now 4) "OS" h.OS "-",
      recordRow env (env.now 5) "Platform" h.Platform "-"]

/-! ## Theorems -/

theorem digitVal_digitChar (d : Nat) (h : d < 10) : digitVal (digitChar d) = some d := by
  interval_cases d <;> decide

theorem digitChar_ne_minus (d : Nat) (h : d < 10) : digitChar d ≠ '-' := by
  interval_cases d <;> decide

theorem readDigits_append_digit (ds : List Char) (d : Nat) (hd : d < 10) (u : Nat)
    (h : ∀ a rest, readDigits (ds ++ rest) a = readDigits rest (a * 10 ^ ds.length + u)) :
    ∀ a rest, readDigits ((ds ++ [digitChar d]) ++ rest) a
      = readDigits rest (a * 10 ^ (ds ++ [digitChar d]).length + (u * 10 + d)) := by
  intro a rest
  rw [List.append_assoc, h]
  simp only [List.singleton_append, readDigits, digitVal_digitChar d hd, List.length_append,
    List.length_singleton]
  congr 1
  ring

/-- What the digit loop produces: a non-empty run of digits in front of the accumulator
that reads back as `u`. -/
theorem formatBits_spec : ∀ (fuel u : Nat) (acc : List Char), u < fuel →
    ∃ ds : List Char, formatBits fuel u acc = ds ++ acc ∧
      (∃ d ds', ds = digitChar d :: ds' ∧ d < 10) ∧
      ∀ a rest, readDigits (ds ++ rest) a = readDigits rest (a * 10 ^ ds.length + u) := by
  intro fuel
  induction fuel with
  | zero => intro u acc h; omega
  | succ fuel ih =>
    intro u acc h
    by_cases hu : 10 ≤ u
    · have hlt : u / 10 < fuel := by omega
      obtain ⟨ds, hds, ⟨d, ds', hhead, hd⟩, hread⟩ := ih (u / 10) (digitChar (u % 10) :: acc) hlt
      refine ⟨ds ++ [digitChar (u % 10)], ?_, ⟨d, ds' ++ [digitChar (u % 10)], ?_, hd⟩, ?_⟩
      · simp [formatBits, hu, hds]
      · simp [hhead]
      · intro a rest
        have hmod : u % 10 < 10 := Nat.mod_lt _ (by decide)
        have := readDigits_append_digit ds (u % 10) hmod (u / 10) hread a rest
        rw [this]
        congr 2
        omega
    · refine ⟨[digitChar u], ?_, ⟨u, [], rfl, by omega⟩, ?_⟩
      · simp [formatBits, hu]
      · intro a rest
        simp [readDigits, digitVal_digitChar u (by omega)]

theorem readDigits_decimalDigits (u : Nat) : readDigits (decimalDigits u) 0 = some u := by
  obtain ⟨ds, hds, _, hread⟩ := formatBits_spec (u + 1) u [] (Nat.lt_succ_self u)
  have h := hread 0 []
  simp only [List.append_nil, readDigits, Nat.zero_mul, Nat.zero_add] at h hds
  rw [decimalDigits, hds, h]

theorem decimalDigits_head (u : Nat) :
    ∃ d ds, decimalDigits u = digitChar d :: ds ∧ d < 10 := by
  obtain ⟨ds, hds, ⟨d, ds', hhead, hd⟩, _⟩ := formatBits_spec (u + 1) u [] (Nat.lt_succ_self u)
  exact ⟨d, ds', by rw [decimalDigits, hds, hhead, List.append_nil], hd⟩

theorem parseInt_minus (cs : List Char) (h : cs ≠ []) :
    parseInt (String.mk ('-' :: cs)) = (readDigits cs 0).map (fun n => -(n : Int)) := by
  simp [parseInt, h]

theorem parseInt_digits (c : Char) (cs : List Char) (h : c ≠ '-') :
    parseInt (String.mk (c :: cs)) = (readDigits (c :: cs) 0).map (fun n => (n : Int)) := by
  simp [parseInt, h]

/-- The decimal string of an integer reads back as that integer. -/
theorem parseInt_formatInt (i : Int) : parseInt (formatInt i) = some i := by
  unfold formatInt
  by_cases hneg : i < 0
  · obtain ⟨d, ds, hhead, _⟩ := decimalDigits_head i.natAbs
    have hread := readDigits_decimalDigits i.natAbs
    have hne : decimalDigits i.natAbs ≠ [] := by rw [hhead]; simp
    rw [if_pos hneg, parseInt_minus _ hne, hread]
    show some (-(i.natAbs : Int)) = some i
    congr 1
    omega
  · obtain ⟨d, ds, hhead, hd⟩ := decimalDigits_head i.toNat
    have hread := readDigits_decimalDigits i.toNat
    rw [if_neg hneg]
    rw [hhead] at hread ⊢
    rw [parseInt_digits _ _ (digitChar_ne_minus d hd), hread]
    show some (i.toNat : Int) = some i
    congr 1
    omega

theorem wrapInt64_of_fits (x : Int) (h0 : minInt64 ≤ x) (h1 : x ≤ maxInt64) : wrapInt64 x = x := by
  unfold wrapInt64
  unfold minInt64 at h0
  unfold maxInt64 at h1
  omega

theorem digitChar_eq_core (d : Nat) (h : d < 10) : digitChar d = Nat.digitChar d := by
  interval_cases d <;> decide

theorem formatBits_eq_toDigitsCore : ∀ (fuel u : Nat) (acc : List Char),
    formatBits fuel u acc = Nat.toDigitsCore 10 fuel u acc := by
  intro fuel
  induction fuel with
  | zero => intro u acc; rfl
  | succ fuel ih =>
    intro u acc
    have hmod : u % 10 < 10 := Nat.mod_lt _ (by decide)
    by_cases hu : 10 ≤ u
    · have hne : ¬ u / 10 = 0 := by omega
      simp only [formatBits, Nat.toDigitsCore, hu, if_true, hne, if_false, ih,
        digitChar_eq_core _ hmod]
    · have hz : u / 10 = 0 := by omega
      have hm : u % 10 = u := by omega
      simp only [formatBits, Nat.toDigitsCore, hu, if_false, hz, if_true, hm,
        digitChar_eq_core u (by omega)]

/-- Go's `FormatUint(u, 10)` is the usual decimal numeral of `u`. -/
theorem formatUint_eq_toString (u : Nat) : formatUint u = toString u := by
  show String.mk (formatBits (u + 1) u []) = (Nat.toDigitsCore 10 (u + 1) u []).asString
  rw [formatBits_eq_toDigitsCore]
  rfl

/-- Go's `FormatInt(i, 10)` is the usual decimal numeral of `i`. -/
theorem formatInt_eq_toString (i : Int) : formatInt i = toString i := by
  cases i with
  | ofNat m =>
    have h : ¬ (Int.ofNat m < 0) := by simp
    simp only [formatInt, h, if_false]
    exact formatUint_eq_toString m
  | negSucc m =>
    have h : Int.negSucc m < 0 := Int.negSucc_lt_zero m
    simp only [formatInt, h, if_true]
    show String.mk ('-' :: decimalDigits (m + 1)) = "-" ++ toString (m + 1)
    rw [← formatUint_eq_toString]
    rfl

theorem itoa_natCast (n : Nat) : itoa (n : Int) = toString n := by
  rw [itoa, formatInt_eq_toString]
  rfl

/-! ### The sink -/

theorem writeFlushSync_open (wr : Writer) (row : Row) (w : World) (f : File)
    (hf : w.csvFile = some f) (ho : f.closed = false) :
    writeFlushSync wr row w =
      { w with
        csvWriter := some { buf := [] },
        csvFile := some { persisted := f.persisted ++ (f.unsynced ++ (wr.buf ++ csvLine row)),
                          unsynced := [], closes := f.closes } } := by
  have hc : f.closes = 0 := by simpa [File.closed] using ho
  simp [writeFlushSync, flush, syncFile, hf, hc, File.write, File.sync, Writer.write, File.closed]

theorem writeFlushSync_onDisk (row : Row) (w : World) (p : List Char) (h : w.onDisk p) :
    (writeFlushSync { buf := [] } row w).onDisk (p ++ csvLine row) ∧
    (writeFlushSync { buf := [] } row w).clock = w.clock ∧
    (writeFlushSync { buf := [] } row w).stdout = w.stdout := by
  obtain ⟨hf, _⟩ := h
  rw [writeFlushSync_open _ row w _ hf rfl]
  simp [World.onDisk]

theorem recordWithPredefinedTimeStamp_onDisk (env : Env) (dt : Time) (q v u : String)
    (w : World) (p : List Char) (h : w.onDisk p) :
    (recordWithPredefinedTimeStamp env dt q v u w).onDisk (p ++ csvLine (recordRow env dt q v u)) ∧
    (recordWithPredefinedTimeStamp env dt q v u w).clock = w.clock ∧
    (recordWithPredefinedTimeStamp env dt q v u w).stdout = w.stdout := by
  have hw := h.2
  simp only [recordWithPredefinedTimeStamp, hw]
  exact writeFlushSync_onDisk _ w p h

theorem record_onDisk (env : Env) (q v u : String) (w : World) (p : List Char) (h : w.onDisk p) :
    (record env q v u w).onDisk (p ++ csvLine (recordRow env (env.now w.clock) q v u)) ∧
    (record env q v u w).clock = w.clock + 1 ∧
    (record env q v u w).stdout = w.stdout := by
  have h' : ({ w with clock := w.clock + 1 } : World).onDisk p := h
  exact recordWithPredefinedTimeStamp_onDisk env (env.now w.clock) q v u _ p h'

theorem writeHeader_onDisk (w : World) (p : List Char) (h : w.onDisk p) :
    ∃ w', writeHeader w = some w' ∧ w'.onDisk (p ++ csvLine headerRow) ∧
      w'.clock = w.clock ∧ w'.stdout = w.stdout := by
  refine ⟨writeFlushSync { buf := [] } headerRow w, ?_, writeFlushSync_onDisk headerRow w p h⟩
  simp [writeHeader, h.1, h.2]

theorem fresh_onDisk : World.fresh.onDisk [] := ⟨rfl, rfl⟩

theorem reportErr_onDisk (err : Option String) (w : World) (p : List Char) (h : w.onDisk p) :
    (reportErr err w).onDisk p ∧ (reportErr err w).clock = w.clock := by
  cases err <;> exact ⟨h, rfl⟩

/-! ### The row of a record -/

theorem unixNano_of_fits (dt : Time) (h0 : minInt64 ≤ dt.nanos) (h1 : dt.nanos ≤ maxInt64) :
    dt.UnixNano = dt.nanos :=
  wrapInt64_of_fits _ h0 h1

/-- C1: for a timestamp at or after the epoch whose nanosecond count fits in an `int64`,
`recordWithPredefinedTimeStamp` builds the five-field row
`[dt.String(), decimal(floor(nanos / 1000000)), quantity, value, unit]` (the decimal string
reads back as that integer) and hands exactly this row to the writer; `record` does the
same with `dt` the next clock reading. -/
theorem recordWithPredefinedTimeStamp_builds_row (env : Env) (dt : Time)
    (quantity value unit : String) (w : World)
    (h0 : 0 ≤ dt.nanos) (h1 : dt.nanos ≤ maxInt64) :
    recordRow env dt quantity value unit
      = [env.timeString dt, formatInt ⌊(dt.nanos : ℚ) / 1000000⌋, quantity, value, unit] ∧
    (recordRow env dt quantity value unit).length = 5 ∧
    parseInt (formatInt ⌊(dt.nanos : ℚ) / 1000000⌋) = some ⌊(dt.nanos : ℚ) / 1000000⌋ ∧
    recordWithPredefinedTimeStamp env dt quantity value unit w
      = (match w.csvWriter with
         | none => w
         | some wr =>
           writeFlushSync wr
             [env.timeString dt, formatInt ⌊(dt.nanos : ℚ) / 1000000⌋, quantity, value, unit] w) ∧
    record env quantity value unit w
      = recordWithPredefinedTimeStamp env (env.now w.clock) quantity value unit
          { w with clock := w.clock + 1 } := by
  have hfloor : ⌊(dt.nanos : ℚ) / 1000000⌋ = dt.nanos / 1000000 := by
    have := Rat.floor_intCast_div_natCast dt.nanos 1000000
    simpa using this
  have hnano : dt.UnixNano = dt.nanos :=
    unixNano_of_fits dt (by unfold minInt64; omega) h1
  have hdiv : Int.tdiv dt.UnixNano 1000000 = dt.nanos / 1000000 := by
    rw [hnano]
    exact Int.tdiv_eq_ediv h0 (by decide)
  have hrow : recordRow env dt quantity value unit
      = [env.timeString dt, formatInt ⌊(dt.nanos : ℚ) / 1000000⌋, quantity, value, unit] := by
    simp only [recordRow, hdiv, hfloor]
  refine ⟨hrow, by simp [recordRow], parseInt_formatInt _, ?_, rfl⟩
  simp only [recordWithPredefinedTimeStamp, hrow]

/-- Witness of C1 at 2023-11-14 22:13:20.123456789 UTC. -/
theorem recordWithPredefinedTimeStamp_builds_row_witness :
    (0 : Int) ≤ (Time.mk 1700000000 123456789).nanos ∧
    (Time.mk 1700000000 123456789).nanos ≤ maxInt64 ∧
    recordRow ⟨fun _ => "t", fun _ => "f", fun _ => ⟨0, 0⟩⟩ (Time.mk 1700000000 123456789)
        "q" "v" "u"
      = ["t", formatInt ⌊(((Time.mk 1700000000 123456789).nanos : Int) : ℚ) / 1000000⌋,
         "q", "v", "u"] :=
  ⟨by decide, by decide,
   (recordWithPredefinedTimeStamp_builds_row ⟨fun _ => "t", fun _ => "f", fun _ => ⟨0, 0⟩⟩
      (Time.mk 1700000000 123456789) "q" "v" "u" World.fresh (by decide) (by decide)).1⟩

/-! ### The header -/

/-- C2, as stated, fails: the first field of the header that `writeHeader` writes is
spelled `timeStamp`, so the row is not the all-lower-case one. -/
theorem writeHeader_not_lowercase_timestamp :
    (writeHeader World.fresh).map World.persisted
      = some "timeStamp,millisSinceUnixEpoch,quantity,value,unit\n".data ∧
    (writeHeader World.fresh).map World.persisted
      ≠ some (csvLine ["timestamp", "millisSinceUnixEpoch", "quantity", "value", "unit"]) ∧
    headerRow ≠ ["timestamp", "millisSinceUnixEpoch", "quantity", "value", "unit"] := by
  decide

/-- C2, amended: on an initialised sink at rest `writeHeader` returns and appends exactly
the row `timeStamp, millisSinceUnixEpoch, quantity, value, unit` (capital `S` in the first
field), five fields in this order, as one durable line. -/
theorem writeHeader_row (w : World) (p : List Char) (h : w.onDisk p) :
    headerRow = ["timeStamp", "millisSinceUnixEpoch", "quantity", "value", "unit"] ∧
    ∃ w', writeHeader w = some w' ∧
      w'.onDisk (p ++ csvLine ["timeStamp", "millisSinceUnixEpoch", "quantity", "value", "unit"]) ∧
      csvLine ["timeStamp", "millisSinceUnixEpoch", "quantity", "value", "unit"]
        = "timeStamp,millisSinceUnixEpoch,quantity,value,unit\n".data := by
  refine ⟨rfl, ?_⟩
  obtain ⟨w', hw, hd, _, _⟩ := writeHeader_onDisk w p h
  exact ⟨w', hw, hd, by decide⟩

/-- Witness of the amended C2 on the freshly created sink. -/
theorem writeHeader_row_witness :
    World.fresh.onDisk [] ∧
    ∃ w', writeHeader World.fresh = some w' ∧
      w'.onDisk ([] ++ csvLine ["timeStamp", "millisSinceUnixEpoch", "quantity", "value", "unit"]) ∧
      csvLine ["timeStamp", "millisSinceUnixEpoch", "quantity", "value", "unit"]
        = "timeStamp,millisSinceUnixEpoch,quantity,value,unit\n".data :=
  ⟨fresh_onDisk, (writeHeader_row World.fresh [] fresh_onDisk).2⟩

/-! ### Flush before return -/

/-- C8: on an initialised sink (file open with durable content `f.persisted` and pending
data `f.unsynced`, writer holding `wr.buf`) each of `writeHeader`,
`recordWithPredefinedTimeStamp` and `record` returns with nothing buffered or unsynced and
with durable content = previous durable content, then the pending data, then the new row;
the sink stays initialised. -/
theorem emit_durable_on_return (env : Env) (dt : Time) (quantity value unit : String)
    (w : World) (f : File) (wr : Writer)
    (hf : w.csvFile = some f) (hw : w.csvWriter = some wr) (ho : f.closed = false) :
    (∃ w', writeHeader w = some w' ∧ w'.pending = [] ∧ w'.initialised ∧
      w'.persisted = f.persisted ++ (f.unsynced ++ wr.buf) ++ csvLine headerRow) ∧
    ((recordWithPredefinedTimeStamp env dt quantity value unit w).pending = [] ∧
      (recordWithPredefinedTimeStamp env dt quantity value unit w).initialised ∧
      (recordWithPredefinedTimeStamp env dt quantity value unit w).persisted
        = f.persisted ++ (f.unsynced ++ wr.buf) ++ csvLine (recordRow env dt quantity value unit)) ∧
    ((record env quantity value unit w).pending = [] ∧
      (record env quantity value unit w).initialised ∧
      (record env quantity value unit w).persisted
        = f.persisted ++ (f.unsynced ++ wr.buf)
            ++ csvLine (recordRow env (env.now w.clock) quantity value unit)) := by
  have hc : f.closes = 0 := by simpa [File.closed] using ho
  have key : ∀ (row : Row) (w0 : World), w0.csvFile = some f →
      (writeFlushSync wr row w0).pending = [] ∧ (writeFlushSync wr row w0).initialised ∧
      (writeFlushSync wr row w0).persisted = f.persisted ++ (f.unsynced ++ wr.buf) ++ csvLine row := by
    intro row w0 h0
    rw [writeFlushSync_open wr row w0 f h0 ho]
    refine ⟨rfl, ⟨_, _, rfl, rfl, ?_⟩, ?_⟩
    · simp [File.closed, hc]
    · simp [World.persisted]
  refine ⟨⟨writeFlushSync wr headerRow w, ?_, key headerRow w hf⟩, ?_, ?_⟩
  · simp [writeHeader, hf, hw]
  · simp only [recordWithPredefinedTimeStamp, hw]
    exact key _ w hf
  · simp only [record, recordWithPredefinedTimeStamp, hw]
    exact key _ _ hf

/-- Witness of C8: a sink with three unsynced and two buffered characters. -/
theorem emit_durable_on_return_witness :
    (recordWithPredefinedTimeStamp ⟨fun _ => "t", fun _ => "f", fun _ => ⟨0, 0⟩⟩ ⟨1, 0⟩ "q" "v" "u"
      { csvFile := some ⟨"a,b\n".data, "c,d".data, 0⟩, csvWriter := some ⟨",e".data⟩,
        clock := 1, stdout := [] }).pending = [] :=
  (emit_durable_on_return ⟨fun _ => "t", fun _ => "f", fun _ => ⟨0, 0⟩⟩ ⟨1, 0⟩ "q" "v" "u"
    { csvFile := some ⟨"a,b\n".data, "c,d".data, 0⟩, csvWriter := some ⟨",e".data⟩,
      clock := 1, stdout := [] } ⟨"a,b\n".data, "c,d".data, 0⟩ ⟨",e".data⟩ rfl rfl rfl).2.1.1

/-! ### The body of a tick -/

theorem csvText_append (a b : List Row) : csvText (a ++ b) = csvText a ++ csvText b := by
  induction a with
  | nil => rfl
  | cons r rs ih => simp [csvText, ih]

theorem csvText_singleton (r : Row) : csvText [r] = csvLine r := by
  simp [csvText]

theorem utilRecords_onDisk (env : Env) (dt : Time) :
    ∀ (ps : List Float64) (idx : Nat) (w : World) (p : List Char), w.onDisk p →
      (utilRecords env dt idx ps w).onDisk
        (p ++ csvText ((ps.enumFrom idx).map (fun ix =>
          recordRow env dt ("Current CPU utilization: [" ++ toString ix.1 ++ "]")
            (env.formatFloat ix.2) "%"))) ∧
      (utilRecords env dt idx ps w).clock = w.clock := by
  intro ps
  induction ps with
  | nil => intro idx w p h; simpa [utilRecords, csvText] using h
  | cons x xs ih =>
    intro idx w p h
    obtain ⟨h1, hc1, _⟩ := recordWithPredefinedTimeStamp_onDisk env dt
      ("Current CPU utilization: [" ++ toString idx ++ "]") (env.formatFloat x) "%" w p h
    obtain ⟨h2, hc2⟩ := ih (idx + 1) _ _ h1
    simp only [utilRecords, itoa_natCast, List.enumFrom_cons, List.map_cons, csvText]
    refine ⟨?_, hc2.trans hc1⟩
    rw [← List.append_assoc]
    exact h2

theorem memRecords_onDisk (env : Env) (dt : Time) (vm : Option VirtualMemoryStat)
    (w : World) (p : List Char) (h : w.onDisk p) :
    (memRecords env dt vm w).onDisk
      (p ++ csvText (match vm with
        | none => []
        | some v =>
          [recordRow env dt "Total memory" (toString v.Total) "Bytes",
           recordRow env dt "Available memory" (toString v.Available) "Bytes",
           recordRow env dt "Percentage used memory" (env.formatFloat v.UsedPercent) "%"])) ∧
    (memRecords env dt vm w).clock = w.clock := by
  cases vm with
  | none => simpa [memRecords, csvText] using h
  | some v =>
    obtain ⟨h1, c1, _⟩ := recordWithPredefinedTimeStamp_onDisk env dt "Total memory"
      (formatUint v.Total) "Bytes" w p h
    obtain ⟨h2, c2, _⟩ := recordWithPredefinedTimeStamp_onDisk env dt "Available memory"
      (formatUint v.Available) "Bytes" _ _ h1
    obtain ⟨h3, c3, _⟩ := recordWithPredefinedTimeStamp_onDisk env dt "Percentage used memory"
      (env.formatFloat v.UsedPercent) "%" _ _ h2
    refine ⟨?_, ?_⟩
    · simpa [memRecords, csvText, formatUint_eq_toString] using h3
    · simp only [memRecords]; rw [c3, c2, c1]

/-- C4: on an initialised sink at rest, the body of a tick returns (it is a total function:
no pointer is dereferenced unguarded) having appended exactly one row per utilization
percentage, the `i`-th with quantity `Current CPU utilization: [i]` (decimal `i` from 0)
and unit `%`, followed by the three memory rows `Total memory` (Bytes),
`Available memory` (Bytes), `Percentage used memory` (%) when `vmStat` is not nil and by
nothing otherwise; every row is built from the one clock reading of the tick.  The errors
of the two queries play no part in the rows. -/
theorem tickBody_rows (env : Env) (t : TickInput) (w : World) (p : List Char)
    (h : w.onDisk p) :
    (tickBody env t w).onDisk
      (p ++ csvText
        ((t.percentage.value.enum.map (fun ix =>
            recordRow env (env.now w.clock)
              ("Current CPU utilization: [" ++ toString ix.1 ++ "]") (env.formatFloat ix.2) "%"))
          ++ (match t.vmStat.value with
              | none => []
              | some v =>
                [recordRow env (env.now w.clock) "Total memory" (toString v.Total) "Bytes",
                 recordRow env (env.now w.clock) "Available memory" (toString v.Available) "Bytes",
                 recordRow env (env.now w.clock) "Percentage used memory"
                   (env.formatFloat v.UsedPercent) "%"]))) ∧
    (t.percentage.value.enum.map (fun ix =>
        recordRow env (env.now w.clock)
          ("Current CPU utilization: [" ++ toString ix.1 ++ "]") (env.formatFloat ix.2) "%")).length
      = t.percentage.value.length ∧
    (tickBody env t w).clock = w.clock + 1 := by
  obtain ⟨h1, c1⟩ := reportErr_onDisk t.percentage.err w p h
  obtain ⟨h2, c2⟩ := reportErr_onDisk t.vmStat.err _ p h1
  have hclock : (reportErr t.vmStat.err (reportErr t.percentage.err w)).clock = w.clock := by
    rw [c2, c1]
  have e : tickBody env t w
      = memRecords env (env.now w.clock) t.vmStat.value
          (utilRecords env (env.now w.clock) 0 t.percentage.value
            { reportErr t.vmStat.err (reportErr t.percentage.err w) with clock := w.clock + 1 }) := by
    simp only [tickBody, hclock]
  have h3 : ({ reportErr t.vmStat.err (reportErr t.percentage.err w) with
      clock := w.clock + 1 } : World).onDisk p := h2
  obtain ⟨h4, c4⟩ := utilRecords_onDisk env (env.now w.clock) t.percentage.value 0 _ p h3
  obtain ⟨h5, c5⟩ := memRecords_onDisk env (env.now w.clock) t.vmStat.value _ _ h4
  refine ⟨?_, by simp, ?_⟩
  · rw [e, csvText_append, ← List.append_assoc]
    exact h5
  · rw [e, c5, c4]

/-- Witness of C4: two utilization values, memory query failed. -/
theorem tickBody_rows_witness :
    World.fresh.onDisk [] ∧
    (tickBody ⟨fun _ => "t", fun _ => "f", fun _ => ⟨0, 0⟩⟩
      ⟨⟨[⟨1⟩, ⟨2⟩], none⟩, ⟨none, some "no memory"⟩⟩ World.fresh).clock = World.fresh.clock + 1 :=
  ⟨fresh_onDisk,
   (tickBody_rows ⟨fun _ => "t", fun _ => "f", fun _ => ⟨0, 0⟩⟩
      ⟨⟨[⟨1⟩, ⟨2⟩], none⟩, ⟨none, some "no memory"⟩⟩ World.fresh [] fresh_onDisk).2.2⟩

/-! ### Startup -/

theorem length_flatMap_enumFrom {α β : Type} (f : Nat × α → List β) (n : Nat)
    (hf : ∀ x, (f x).length = n) :
    ∀ (l : List α) (k : Nat), ((l.enumFrom k).flatMap f).length = n * l.length := by
  intro l
  induction l with
  | nil => intro k; simp
  | cons a l ih =>
    intro k
    rw [List.enumFrom_cons, List.flatMap_cons, List.length_append, hf, ih (k + 1),
      List.length_cons, Nat.mul_succ, Nat.add_comm]

theorem cpuRecords_onDisk (env : Env) (dt : Time) (h : HostInfoStat) (idx : Nat)
    (c : CpuInfoStat) (w : World) (p : List Char) (hw : w.onDisk p) :
    (cpuRecords env dt h idx c w).onDisk
      (p ++ csvText
        [recordRow env dt "hostname" h.Hostname "-",
         recordRow env dt ("CPU " ++ toString idx ++ " VendorID") c.VendorID "-",
         recordRow env dt ("CPU " ++ toString idx ++ " Family") c.Family "-",
         recordRow env dt ("CPU " ++ toString idx ++ " Number of cores") (toString c.Cores) "-",
         recordRow env dt ("CPU " ++ toString idx ++ " Model Name") c.ModelName "-",
         recordRow env dt ("CPU " ++ toString idx ++ " Speed") (env.formatFloat c.Mhz) "MHz"]) ∧
    (cpuRecords env dt h idx c w).clock = w.clock := by
  obtain ⟨h1, c1, _⟩ := recordWithPredefinedTimeStamp_onDisk env dt "hostname" h.Hostname "-" w p hw
  obtain ⟨h2, c2, _⟩ := recordWithPredefinedTimeStamp_onDisk env dt
    ("CPU " ++ toString idx ++ " VendorID") c.VendorID "-" _ _ h1
  obtain ⟨h3, c3, _⟩ := recordWithPredefinedTimeStamp_onDisk env dt
    ("CPU " ++ toString idx ++ " Family") c.Family "-" _ _ h2
  obtain ⟨h4, c4, _⟩ := recordWithPredefinedTimeStamp_onDisk env dt
    ("CPU " ++ toString idx ++ " Number of cores") (toString c.Cores) "-" _ _ h3
  obtain ⟨h5, c5, _⟩ := recordWithPredefinedTimeStamp_onDisk env dt
    ("CPU " ++ toString idx ++ " Model Name") c.ModelName "-" _ _ h4
  obtain ⟨h6, c6, _⟩ := recordWithPredefinedTimeStamp_onDisk env dt
    ("CPU " ++ toString idx ++ " Speed") (env.formatFloat c.Mhz) "MHz" _ _ h5
  simp only [cpuRecords, itoa_natCast, formatInt_eq_toString, csvText, List.append_nil]
  refine ⟨?_, by rw [c6, c5, c4, c3, c2, c1]⟩
  simpa only [List.append_assoc] using h6

theorem cpuLoop_onDisk (env : Env) (dt : Time) (h : HostInfoStat) :
    ∀ (cs : List CpuInfoStat) (idx : Nat) (w : World) (p : List Char), w.onDisk p →
      ∃ w', cpuLoop env dt (some h) idx cs w = .ok w' ∧
        w'.onDisk (p ++ csvText ((cs.enumFrom idx).flatMap (fun ic =>
          [recordRow env dt "hostname" h.Hostname "-",
           recordRow env dt ("CPU " ++ toString ic.1 ++ " VendorID") ic.2.VendorID "-",
           recordRow env dt ("CPU " ++ toString ic.1 ++ " Family") ic.2.Family "-",
           recordRow env dt ("CPU " ++ toString ic.1 ++ " Number of cores")
             (toString ic.2.Cores) "-",
           recordRow env dt ("CPU " ++ toString ic.1 ++ " Model Name") ic.2.ModelName "-",
           recordRow env dt ("CPU " ++ toString ic.1 ++ " Speed")
             (env.formatFloat ic.2.Mhz) "MHz"]))) ∧
        w'.clock = w.clock := by
  intro cs
  induction cs with
  | nil => intro idx w p hw; exact ⟨w, rfl, by simpa [csvText] using hw, rfl⟩
  | cons c cs ih =>
    intro idx w p hw
    obtain ⟨h1, c1⟩ := cpuRecords_onDisk env dt h idx c w p hw
    obtain ⟨w', e, h2, c2⟩ := ih (idx + 1) _ _ h1
    refine ⟨w', by simpa only [cpuLoop] using e, ?_, c2.trans c1⟩
    rw [List.enumFrom_cons, List.flatMap_cons, csvText_append, ← List.append_assoc]
    exact h2

theorem hostRecords_onDisk (env : Env) (h : HostInfoStat) (w : World) (p : List Char)
    (hw : w.onDisk p) :
    ∃ w', hostRecords env (some h) w = .ok w' ∧
      w'.onDisk (p ++ csvText
        [recordRow env (env.now w.clock) "Hostname" h.Hostname "-",
         recordRow env (env.now (w.clock + 1)) "Uptime" (toString h.Uptime) "s",
         recordRow env (env.now (w.clock + 2)) "OS" h.OS "-",
         recordRow env (env.now (w.clock + 3)) "Platform" h.Platform "-"]) ∧
      w'.clock = w.clock + 4 := by
  obtain ⟨h1, c1, _⟩ := record_onDisk env "Hostname" h.Hostname "-" w p hw
  obtain ⟨h2, c2, _⟩ := record_onDisk env "Uptime" (toString h.Uptime) "s" _ _ h1
  obtain ⟨h3, c3, _⟩ := record_onDisk env "OS" h.OS "-" _ _ h2
  obtain ⟨h4, c4, _⟩ := record_onDisk env "Platform" h.Platform "-" _ _ h3
  simp only [c3, c2, c1, Nat.add_assoc, Nat.reduceAdd] at h4 c4
  refine ⟨_, by simp only [hostRecords, formatUint_eq_toString], ?_, c4⟩
  simpa only [csvText, List.append_nil, List.append_assoc] using h4

theorem startup_world (cpuErr hostErr : Option String) :
    (reportErr hostErr (reportErr cpuErr World.fresh)).onDisk [] ∧
    (reportErr hostErr (reportErr cpuErr World.fresh)).clock = 1 := by
  obtain ⟨h1, c1⟩ := reportErr_onDisk cpuErr World.fresh [] fresh_onDisk
  obtain ⟨h2, c2⟩ := reportErr_onDisk hostErr _ [] h1
  exact ⟨h2, c2.trans c1⟩

theorem startup_eq (env : Env) (cpu : Query (List CpuInfoStat))
    (host : Query (Option HostInfoStat)) :
    startup env none cpu host
      = (match writeHeader (reportErr host.err (reportErr cpu.err World.fresh)) with
         | none => .panic (reportErr host.err (reportErr cpu.err World.fresh))
         | some w4 => staticRecords env cpu.value host.value w4) := rfl

/-- C3, as stated, fails: with one CPU the file holds ten data rows, not nine, the first
being a `hostname` row written inside the CPU loop. -/
theorem startup_not_five_rows_per_cpu :
    (startup sampleEnv none ⟨[sampleCpu], none⟩ ⟨some sampleHost, none⟩).world.persisted
      = ("timeStamp,millisSinceUnixEpoch,quantity,value,unit\n" ++
         "1700000001,1700000001000,hostname,box,-\n" ++
         "1700000001,1700000001000,CPU 0 VendorID,GenuineIntel,-\n" ++
         "1700000001,1700000001000,CPU 0 Family,6,-\n" ++
         "1700000001,1700000001000,CPU 0 Number of cores,4,-\n" ++
         "1700000001,1700000001000,CPU 0 Model Name,Core,-\n" ++
         "1700000001,1700000001000,CPU 0 Speed,2400,MHz\n" ++
         "1700000002,1700000002000,Hostname,box,-\n" ++
         "1700000003,1700000003000,Uptime,77,s\n" ++
         "1700000004,1700000004000,OS,linux,-\n" ++
         "1700000005,1700000005000,Platform,debian,-\n").data ∧
    (startup sampleEnv none ⟨[sampleCpu], none⟩ ⟨some sampleHost, none⟩).world.persisted
      ≠ csvText (headerRow :: specStartupRows sampleEnv [sampleCpu] sampleHost) ∧
    (specStartupRows sampleEnv [sampleCpu] sampleHost).length = 5 * 1 + 4 := by
  decide

/-- C3, amended: when the host query returned a host record, startup returns with the file
holding the header and then exactly: for each CPU index `0..n-1` in order the six rows
`hostname`, `CPU i VendorID`, `CPU i Family`, `CPU i Number of cores`, `CPU i Model Name`,
`CPU i Speed`, all built from the one clock reading taken after the header (`6 * n` rows),
followed by the four host rows `Hostname`, `Uptime`, `OS`, `Platform`, each with a fresh
clock reading; nothing else. -/
theorem startup_rows (env : Env) (cpu : Query (List CpuInfoStat)) (h : HostInfoStat)
    (hostErr : Option String) :
    ∃ w, startup env none cpu ⟨some h, hostErr⟩ = .ok w ∧
      w.onDisk (csvText (headerRow ::
        ((cpu.value.enum.flatMap (fun ic =>
            [recordRow env (env.now 1) "hostname" h.Hostname "-",
             recordRow env (env.now 1) ("CPU " ++ toString ic.1 ++ " VendorID") ic.2.VendorID "-",
             recordRow env (env.now 1) ("CPU " ++ toString ic.1 ++ " Family") ic.2.Family "-",
             recordRow env (env.now 1) ("CPU " ++ toString ic.1 ++ " Number of cores")
               (toString ic.2.Cores) "-",
             recordRow env (env.now 1) ("CPU " ++ toString ic.1 ++ " Model Name")
               ic.2.ModelName "-",
             recordRow env (env.now 1) ("CPU " ++ toString ic.1 ++ " Speed")
               (env.formatFloat ic.2.Mhz) "MHz"]))
          ++ [recordRow env (env.now 2) "Hostname" h.Hostname "-",
              recordRow env (env.now 3) "Uptime" (toString h.Uptime) "s",
              recordRow env (env.now 4) "OS" h.OS "-",
              recordRow env (env.now 5) "Platform" h.Platform "-"]))) ∧
      (cpu.value.enum.flatMap (fun ic =>
            [recordRow env (env.now 1) "hostname" h.Hostname "-",
             recordRow env (env.now 1) ("CPU " ++ toString ic.1 ++ " VendorID") ic.2.VendorID "-",
             recordRow env (env.now 1) ("CPU " ++ toString ic.1 ++ " Family") ic.2.Family "-",
             recordRow env (env.now 1) ("CPU " ++ toString ic.1 ++ " Number of cores")
               (toString ic.2.Cores) "-",
             recordRow env (env.now 1) ("CPU " ++ toString ic.1 ++ " Model Name")
               ic.2.ModelName "-",
             recordRow env (env.now 1) ("CPU " ++ toString ic.1 ++ " Speed")
               (env.formatFloat ic.2.Mhz) "MHz"])).length = 6 * cpu.value.length ∧
      w.clock = 6 := by
  obtain ⟨h3, c3⟩ := startup_world cpu.err hostErr
  obtain ⟨w4, e4, h4, c4, _⟩ := writeHeader_onDisk _ [] h3
  rw [c3] at c4
  have h5 : ({ w4 with clock := w4.clock + 1 } : World).onDisk ([] ++ csvLine headerRow) := h4
  obtain ⟨w6, e6, h6, c6⟩ := cpuLoop_onDisk env (env.now w4.clock) h cpu.value 0 _ _ h5
  obtain ⟨w7, e7, h7, c7⟩ := hostRecords_onDisk env h w6 _ h6
  have c6' : w6.clock = 2 := by rw [c6]; simp [c4]
  rw [c6'] at h7 c7
  rw [c4] at h6 h7 e6
  refine ⟨w7, ?_, ?_, ?_, by rw [c7]⟩
  · rw [startup_eq]
    simp only [e4, staticRecords, c4, e6, e7]
  · simp only [csvText, csvText_append, List.nil_append, List.append_assoc, List.enum,
      List.append_nil] at h7 ⊢
    exact h7
  · rw [List.enum]
    apply length_flatMap_enumFrom
    intro x
    rfl

/-- C6 fails on the code when the host query returns a nil record: startup writes the
header and then aborts with a nil-pointer panic at the first `hostStat.Hostname`, in the
CPU loop or at the first host record; no host row reaches the file and the sampling loop
is never started. -/
theorem startup_panics_on_nil_host (env : Env) (cpu : Query (List CpuInfoStat))
    (hostErr : Option String) :
    ∃ w, startup env none cpu ⟨none, hostErr⟩ = .panic w ∧
      w.persisted = csvLine headerRow := by
  obtain ⟨h3, c3⟩ := startup_world cpu.err hostErr
  obtain ⟨w4, e4, h4, c4, _⟩ := writeHeader_onDisk _ [] h3
  have hp : ({ w4 with clock := w4.clock + 1 } : World).persisted = csvLine headerRow := by
    simp [World.persisted, h4.1]
  rw [startup_eq]
  simp only [e4, staticRecords]
  cases hc : cpu.value with
  | nil => exact ⟨_, by simp [cpuLoop, hostRecords], hp⟩
  | cons c cs => exact ⟨_, by simp [cpuLoop], hp⟩

/-! ### Writing and reading back -/

theorem readCSV_quoted_body : ∀ (body fld : List Char) (row : Row) (rest : List Char),
    readCSV (escapeQuoted body ++ '"' :: rest) .quoted fld row
      = readCSV rest .quoteSeen (fld ++ body) row := by
  intro body
  induction body with
  | nil => intro fld row rest; simp [escapeQuoted, readCSV]
  | cons c cs ih =>
    intro fld row rest
    by_cases hc : c = '"'
    · subst hc
      simp only [escapeQuoted, if_true, List.cons_append, readCSV, List.append_eq]
      rw [ih]
      simp
    · simp only [escapeQuoted, hc, if_false, List.cons_append, readCSV, List.append_eq]
      rw [ih]
      simp

theorem readCSV_bare_body : ∀ (body fld : List Char) (row : Row) (rest : List Char),
    plainChars body →
    readCSV (body ++ rest) .bare fld row = readCSV rest .bare (fld ++ body) row := by
  intro body
  induction body with
  | nil => intro fld row rest _; simp
  | cons c cs ih =>
    intro fld row rest hp
    obtain ⟨h1, h2, h3, h4⟩ := hp c (List.mem_cons_self _ _)
    have hcs : plainChars cs := fun x hx => hp x (List.mem_cons_of_mem _ hx)
    simp only [List.cons_append, readCSV, h1, h2, h3, h4, if_false, List.append_eq]
    rw [ih _ _ _ hcs]
    simp

theorem plainChars_of_not_needsQuotes (field : List Char) (h : fieldNeedsQuotes field = false) :
    plainChars field := by
  cases field with
  | nil => intro c hc; simp at hc
  | cons r1 rs =>
    simp only [fieldNeedsQuotes] at h
    split at h
    · simp at h
    · split at h
      · simp at h
      · rename_i hany
        intro c hc
        have := fun hx => hany (List.any_eq_true.mpr ⟨c, hc, hx⟩)
        simp only [Bool.or_eq_true, decide_eq_true_eq, not_or] at this
        tauto

/-- Reading one written field up to the comma that follows it. -/
theorem readCSV_field_comma (f : String) (row : Row) (rest : List Char) :
    readCSV (encodeField f ++ ',' :: rest) .fieldStart [] row
      = readCSV rest .fieldStart [] (row ++ [f]) := by
  unfold encodeField
  by_cases hq : fieldNeedsQuotes f.data = true
  · simp only [hq, if_true, List.cons_append, List.append_assoc, List.singleton_append, readCSV, List.append_eq]
    rw [readCSV_quoted_body]
    simp [readCSV]
  · have hq' : fieldNeedsQuotes f.data = false := by simpa using hq
    have hp := plainChars_of_not_needsQuotes _ hq'
    simp only [hq', Bool.false_eq_true, if_false]
    cases hd : f.data with
    | nil =>
      have hf : f = "" := by
        cases f; simp_all
      simp [readCSV, hf]
    | cons c cs =>
      rw [hd] at hp
      obtain ⟨h1, h2, h3, h4⟩ := hp c (List.mem_cons_self _ _)
      have hcs : plainChars cs := fun x hx => hp x (List.mem_cons_of_mem _ hx)
      simp only [List.cons_append, readCSV, h1, h2, h3, h4, if_false, List.append_eq]
      rw [readCSV_bare_body _ _ _ _ hcs]
      have hf : String.mk (c :: cs) = f := by rw [← hd]
      simp [readCSV, hf]

/-- Reading one written field up to the line feed that ends its record. -/
theorem readCSV_field_newline (f : String) (row : Row) (rest : List Char)
    (hne : row ≠ [] ∨ f ≠ "") :
    readCSV (encodeField f ++ '\n' :: rest) .fieldStart [] row
      = (readCSV rest .fieldStart [] []).map (fun rows => (row ++ [f]) :: rows) := by
  have hemit : ∀ r : Option (List Row),
      emitRecord (row ++ [f]) r = r.map (fun rows => (row ++ [f]) :: rows) := by
    intro r; simp [emitRecord]
  unfold encodeField
  by_cases hq : fieldNeedsQuotes f.data = true
  · simp only [hq, if_true, List.cons_append, List.append_assoc, List.singleton_append, readCSV, List.append_eq]
    rw [readCSV_quoted_body]
    simp [readCSV, hemit]
  · have hq' : fieldNeedsQuotes f.data = false := by simpa using hq
    have hp := plainChars_of_not_needsQuotes _ hq'
    simp only [hq', Bool.false_eq_true, if_false]
    cases hd : f.data with
    | nil =>
      have hf : f = "" := by
        cases f; simp_all
      have hrow : row ≠ [] := by
        rcases hne with h | h
        · exact h
        · exact absurd hf h
      simp [readCSV, hf, hrow, emitRecord]
    | cons c cs =>
      rw [hd] at hp
      obtain ⟨h1, h2, h3, h4⟩ := hp c (List.mem_cons_self _ _)
      have hcs : plainChars cs := fun x hx => hp x (List.mem_cons_of_mem _ hx)
      simp only [List.cons_append, readCSV, h1, h2, h3, h4, if_false, List.append_eq]
      rw [readCSV_bare_body _ _ _ _ hcs]
      have hf : String.mk (c :: cs) = f := by rw [← hd]
      simp [readCSV, hf, hemit]

theorem readCSV_fields : ∀ (fs : List String) (f : String) (row : Row) (rest : List Char),
    (row ≠ [] ∨ f ≠ "" ∨ fs ≠ []) →
    readCSV (encodeField f ++ (encodeRest fs ++ '\n' :: rest)) .fieldStart [] row
      = (readCSV rest .fieldStart [] []).map (fun rows => (row ++ f :: fs) :: rows) := by
  intro fs
  induction fs with
  | nil =>
    intro f row rest h
    have h' : row ≠ [] ∨ f ≠ "" := by
      rcases h with h | h | h
      · exact Or.inl h
      · exact Or.inr h
      · exact absurd rfl h
    simpa [encodeRest] using readCSV_field_newline f row rest h'
  | cons g gs ih =>
    intro f row rest _
    have hrow : row ++ [f] ≠ [] := by simp
    simp only [encodeRest, List.cons_append, List.append_assoc]
    rw [readCSV_field_comma, ih g (row ++ [f]) rest (Or.inl hrow)]
    simp

/-- A written line reads back as its row, in front of whatever the rest of the text holds.
The row must not be the empty row or the row of one empty field, which are written as a
blank line. -/
theorem parseCSV_csvLine_append (r : Row) (rest : List Char) (h : 2 ≤ r.length) :
    parseCSV (csvLine r ++ rest) = (parseCSV rest).map (fun rows => r :: rows) := by
  match r, h with
  | f :: g :: fs, _ =>
    have := readCSV_fields (g :: fs) f [] rest (Or.inr (Or.inr (by simp)))
    simpa [parseCSV, csvLine] using this

/-- A written text of rows with at least two fields each reads back as these rows. -/
theorem parseCSV_csvText (rows : List Row) (h : ∀ r ∈ rows, 2 ≤ r.length) :
    parseCSV (csvText rows) = some rows := by
  induction rows with
  | nil => rfl
  | cons r rs ih =>
    rw [csvText, parseCSV_csvLine_append r _ (h r (List.mem_cons_self _ _)),
      ih (fun x hx => h x (List.mem_cons_of_mem _ hx))]
    rfl

/-! ### The file as a trace of emissions -/

theorem recordWithPredefinedTimeStamp_clock (env : Env) (dt : Time) (q v u : String) (w : World) :
    (recordWithPredefinedTimeStamp env dt q v u w).clock = w.clock := by
  unfold recordWithPredefinedTimeStamp
  cases w.csvWriter <;> rfl

theorem csvText_snoc (rows : List Row) (r : Row) :
    csvText (rows ++ [r]) = csvText rows ++ csvLine r := by
  rw [csvText_append, csvText_singleton]

theorem trace_recordAt (env : Env) (w : World) (es : List Emission) (k : Nat) (q v u : String)
    (h : Trace env w es) (hk : k + 1 = w.clock) :
    Trace env (recordWithPredefinedTimeStamp env (env.now k) q v u w) (es ++ [⟨k, q, v, u⟩]) := by
  obtain ⟨hd, hs, hb⟩ := h
  obtain ⟨hd', hc, _⟩ := recordWithPredefinedTimeStamp_onDisk env (env.now k) q v u w _ hd
  refine ⟨?_, ?_, ?_⟩
  · simp only [List.map_append, List.map_cons, List.map_nil]
    rw [← List.cons_append, csvText_snoc]
    exact hd'
  · rw [List.map_append, List.pairwise_append]
    refine ⟨hs, List.pairwise_singleton _ _, ?_⟩
    intro a ha b hb'
    simp only [List.map_cons, List.map_nil, List.mem_singleton] at hb'
    obtain ⟨e, he, rfl⟩ := List.mem_map.mp ha
    have := hb e he
    omega
  · intro e he
    rw [hc]
    rcases List.mem_append.mp he with h1 | h1
    · exact hb e h1
    · simp only [List.mem_singleton] at h1
      subst h1
      show k < w.clock
      omega

theorem trace_clock_succ (env : Env) (w : World) (es : List Emission) (h : Trace env w es) :
    Trace env { w with clock := w.clock + 1 } es :=
  ⟨h.1, h.2.1, fun e he => Nat.lt_succ_of_lt (h.2.2 e he)⟩

theorem trace_record (env : Env) (w : World) (es : List Emission) (q v u : String)
    (h : Trace env w es) :
    Trace env (record env q v u w) (es ++ [⟨w.clock, q, v, u⟩]) :=
  trace_recordAt env { w with clock := w.clock + 1 } es w.clock q v u
    (trace_clock_succ env w es h) rfl

theorem traced_recordAt (env : Env) (w : World) (k : Nat) (q v u : String)
    (h : Traced env w) (hk : k + 1 = w.clock) :
    Traced env (recordWithPredefinedTimeStamp env (env.now k) q v u w) := by
  obtain ⟨es, he⟩ := h
  exact ⟨_, trace_recordAt env w es k q v u he hk⟩

theorem traced_record (env : Env) (w : World) (q v u : String) (h : Traced env w) :
    Traced env (record env q v u w) := by
  obtain ⟨es, he⟩ := h
  exact ⟨_, trace_record env w es q v u he⟩

theorem traced_reportErr (env : Env) (err : Option String) (w : World) (h : Traced env w) :
    Traced env (reportErr err w) ∧ (reportErr err w).clock = w.clock := by
  cases err <;> exact ⟨h, rfl⟩

theorem traced_utilRecords (env : Env) (k : Nat) :
    ∀ (ps : List Float64) (idx : Nat) (w : World), Traced env w → k + 1 = w.clock →
      Traced env (utilRecords env (env.now k) idx ps w) ∧
      (utilRecords env (env.now k) idx ps w).clock = w.clock := by
  intro ps
  induction ps with
  | nil => intro idx w h _; exact ⟨h, rfl⟩
  | cons x xs ih =>
    intro idx w h hk
    have h1 := traced_recordAt env w k ("Current CPU utilization: [" ++ itoa idx ++ "]")
      (env.formatFloat x) "%" h hk
    have c1 := recordWithPredefinedTimeStamp_clock env (env.now k)
      ("Current CPU utilization: [" ++ itoa idx ++ "]") (env.formatFloat x) "%" w
    obtain ⟨h2, c2⟩ := ih (idx + 1) _ h1 (by rw [c1]; exact hk)
    exact ⟨h2, c2.trans c1⟩

theorem traced_memRecords (env : Env) (k : Nat) (vm : Option VirtualMemoryStat) (w : World)
    (h : Traced env w) (hk : k + 1 = w.clock) :
    Traced env (memRecords env (env.now k) vm w) := by
  cases vm with
  | none => exact h
  | some v =>
    have h1 := traced_recordAt env w k "Total memory" (formatUint v.Total) "Bytes" h hk
    have c1 := recordWithPredefinedTimeStamp_clock env (env.now k) "Total memory"
      (formatUint v.Total) "Bytes" w
    have h2 := traced_recordAt env _ k "Available memory" (formatUint v.Available) "Bytes" h1
      (by rw [c1]; exact hk)
    have c2 := recordWithPredefinedTimeStamp_clock env (env.now k) "Available memory"
      (formatUint v.Available) "Bytes"
      (recordWithPredefinedTimeStamp env (env.now k) "Total memory" (formatUint v.Total) "Bytes" w)
    exact traced_recordAt env _ k "Percentage used memory" (env.formatFloat v.UsedPercent) "%" h2
      (by rw [c2, c1]; exact hk)

theorem traced_tickBody (env : Env) (t : TickInput) (w : World) (h : Traced env w) :
    Traced env (tickBody env t w) := by
  obtain ⟨h1, c1⟩ := traced_reportErr env t.percentage.err w h
  obtain ⟨h2, c2⟩ := traced_reportErr env t.vmStat.err _ h1
  obtain ⟨es, he⟩ := h2
  have h3 : Traced env { reportErr t.vmStat.err (reportErr t.percentage.err w) with
      clock := (reportErr t.vmStat.err (reportErr t.percentage.err w)).clock + 1 } :=
    ⟨es, trace_clock_succ env _ es he⟩
  obtain ⟨h4, c4⟩ := traced_utilRecords env
    (reportErr t.vmStat.err (reportErr t.percentage.err w)).clock t.percentage.value 0 _ h3 rfl
  exact traced_memRecords env _ t.vmStat.value _ h4 (by rw [c4])

theorem traced_runTicks (env : Env) : ∀ (ts : List TickInput) (w : World),
    Traced env w → Traced env (runTicks env ts w) := by
  intro ts
  induction ts with
  | nil => intro w h; exact h
  | cons t ts ih => intro w h; exact ih _ (traced_tickBody env t w h)

theorem batch_recordAt (env : Env) (k : Nat) (q v u : String) (w : World)
    (h : Traced env w ∧ k + 1 = w.clock) :
    Traced env (recordWithPredefinedTimeStamp env (env.now k) q v u w) ∧
    k + 1 = (recordWithPredefinedTimeStamp env (env.now k) q v u w).clock :=
  ⟨traced_recordAt env w k q v u h.1 h.2,
   by rw [recordWithPredefinedTimeStamp_clock]; exact h.2⟩

theorem batch_cpuRecords (env : Env) (k : Nat) (hs : HostInfoStat) (idx : Nat) (c : CpuInfoStat)
    (w : World) (h : Traced env w ∧ k + 1 = w.clock) :
    Traced env (cpuRecords env (env.now k) hs idx c w) ∧
    k + 1 = (cpuRecords env (env.now k) hs idx c w).clock := by
  unfold cpuRecords
  exact batch_recordAt env k _ _ _ _ (batch_recordAt env k _ _ _ _ (batch_recordAt env k _ _ _ _
    (batch_recordAt env k _ _ _ _ (batch_recordAt env k _ _ _ _
      (batch_recordAt env k _ _ _ _ h)))))

theorem batch_cpuLoop (env : Env) (k : Nat) (hostStat : Option HostInfoStat) :
    ∀ (cs : List CpuInfoStat) (idx : Nat) (w : World), (Traced env w ∧ k + 1 = w.clock) →
      Traced env (cpuLoop env (env.now k) hostStat idx cs w).world ∧
      k + 1 = (cpuLoop env (env.now k) hostStat idx cs w).world.clock := by
  intro cs
  induction cs with
  | nil => intro idx w h; exact h
  | cons c cs ih =>
    intro idx w h
    cases hostStat with
    | none => exact h
    | some hs => exact ih (idx + 1) _ (batch_cpuRecords env k hs idx c w h)

theorem traced_hostRecords (env : Env) (hostStat : Option HostInfoStat) (w : World)
    (h : Traced env w) : Traced env (hostRecords env hostStat w).world := by
  cases hostStat with
  | none => exact h
  | some hs =>
    exact traced_record env _ _ _ _ (traced_record env _ _ _ _ (traced_record env _ _ _ _
      (traced_record env _ _ _ _ h)))

theorem traced_staticRecords (env : Env) (cpuStat : List CpuInfoStat)
    (hostStat : Option HostInfoStat) (w : World) (h : Traced env w) :
    Traced env (staticRecords env cpuStat hostStat w).world := by
  obtain ⟨es, he⟩ := h
  have hb : Traced env { w with clock := w.clock + 1 } ∧
      w.clock + 1 = ({ w with clock := w.clock + 1 } : World).clock :=
    ⟨⟨es, trace_clock_succ env w es he⟩, rfl⟩
  have hl := (batch_cpuLoop env w.clock hostStat cpuStat 0 _ hb).1
  have e : staticRecords env cpuStat hostStat w
      = (match cpuLoop env (env.now w.clock) hostStat 0 cpuStat { w with clock := w.clock + 1 } with
         | .ok w1 => hostRecords env hostStat w1
         | r => r) := rfl
  rw [e]
  cases hr : cpuLoop env (env.now w.clock) hostStat 0 cpuStat { w with clock := w.clock + 1 } with
  | ok w1 =>
    rw [hr] at hl
    exact traced_hostRecords env hostStat w1 hl
  | panic w1 => rw [hr] at hl; exact hl
  | fatal w1 => rw [hr] at hl; exact hl

theorem trace_header (env : Env) (w : World) (h : w.onDisk (csvLine headerRow)) :
    Trace env w [] := by
  refine ⟨?_, List.Pairwise.nil, fun e he => absurd he (List.not_mem_nil e)⟩
  simpa [csvText] using h

theorem traced_startup (env : Env) (cpu : Query (List CpuInfoStat))
    (host : Query (Option HostInfoStat)) :
    Traced env (startup env none cpu host).world := by
  obtain ⟨h3, _⟩ := startup_world cpu.err host.err
  obtain ⟨w4, e4, h4, _, _⟩ := writeHeader_onDisk _ [] h3
  rw [startup_eq]
  simp only [e4]
  exact traced_staticRecords env cpu.value host.value w4 ⟨[], trace_header env w4 h4⟩

theorem traced_mainRun (env : Env) (cpu : Query (List CpuInfoStat))
    (host : Query (Option HostInfoStat)) (ticks : List TickInput) :
    Traced env (mainRun env none cpu host ticks).world := by
  have hs := traced_startup env cpu host
  unfold mainRun
  cases hr : startup env none cpu host with
  | ok w => rw [hr] at hs; exact traced_runTicks env ticks w hs
  | panic w => rw [hr] at hs; exact hs
  | fatal w => rw [hr] at hs; exact hs

theorem emission_row_length (env : Env) (e : Emission) : (e.row env).length = 5 := rfl

theorem rowMillis_emission_row (env : Env) (e : Emission) :
    rowMillis (e.row env) = some (millisAt env e.k) := by
  show parseInt (formatInt (Int.tdiv (env.now e.k).UnixNano 1000000)) = _
  rw [parseInt_formatInt]
  rfl

/-- What a trace says about the file: it parses as the header followed by five-field rows
whose epoch-milliseconds values are those computed for readings taken in order. -/
theorem trace_file (env : Env) (w : World) (es : List Emission) (h : Trace env w es) :
    w.persisted = csvText (headerRow :: es.map (Emission.row env)) ∧
    parseCSV w.persisted = some (headerRow :: es.map (Emission.row env)) ∧
    (∀ r ∈ headerRow :: es.map (Emission.row env), r.length = 5) ∧
    (es.map (Emission.row env)).map rowMillis = es.map (fun e => some (millisAt env e.k)) := by
  have hp : w.persisted = csvText (headerRow :: es.map (Emission.row env)) := by
    simp [World.persisted, h.1.1]
  have hlen : ∀ r ∈ headerRow :: es.map (Emission.row env), r.length = 5 := by
    intro r hr
    rcases List.mem_cons.mp hr with h1 | h1
    · rw [h1]; rfl
    · obtain ⟨e, _, rfl⟩ := List.mem_map.mp h1
      rfl
  refine ⟨hp, ?_, hlen, ?_⟩
  · rw [hp]
    exact parseCSV_csvText _ (fun r hr => by rw [hlen r hr]; decide)
  · rw [List.map_map]
    exact List.map_congr_left (fun e _ => rowMillis_emission_row env e)

/-! ### Epoch milliseconds along the file -/

theorem tdiv_million_mono (a b : Int) (h : a ≤ b) :
    Int.tdiv a 1000000 ≤ Int.tdiv b 1000000 := by
  have key : ∀ x : Int, Int.tdiv x 1000000
      = if 0 ≤ x then x / 1000000 else -((-x) / 1000000) := by
    intro x
    by_cases hx : 0 ≤ x
    · rw [if_pos hx, Int.tdiv_eq_ediv hx (by decide)]
    · rw [if_neg hx]
      have h1 : Int.tdiv (-x) 1000000 = (-x) / 1000000 :=
        Int.tdiv_eq_ediv (by omega) (by decide)
      rw [← h1, Int.neg_tdiv, Int.neg_neg]
  rw [key a, key b]
  split_ifs <;> omega

theorem millisAt_mono (env : Env)
    (hmono : ∀ i j, i ≤ j → (env.now i).nanos ≤ (env.now j).nanos)
    (hfit : ∀ i, minInt64 ≤ (env.now i).nanos ∧ (env.now i).nanos ≤ maxInt64)
    (i j : Nat) (h : i ≤ j) : millisAt env i ≤ millisAt env j := by
  unfold millisAt
  rw [unixNano_of_fits _ (hfit i).1 (hfit i).2, unixNano_of_fits _ (hfit j).1 (hfit j).2]
  exact tdiv_million_mono _ _ (hmono i j h)

/-- C7, as stated, fails: with a non-decreasing clock that passes the last instant whose
nanosecond count fits an `int64`, `UnixNano` wraps and the epoch-milliseconds column
of the four host rows drops from 9223372036854 to -9223372036709. -/
theorem millis_decrease_past_int64 :
    (∀ i j : Nat, i ≤ j → (lateEnv.now i).nanos ≤ (lateEnv.now j).nanos) ∧
    (parseCSV (mainRun lateEnv none ⟨[], none⟩ ⟨some sampleHost, none⟩ []).world.persisted).map
        (fun rows => rows.tail.map rowMillis)
      = some [some 9223372036854, some (-9223372036709), some (-9223372036709),
              some (-9223372036709)] ∧
    ¬ List.Pairwise (fun a b : Int => a ≤ b)
        [9223372036854, -9223372036709, -9223372036709, -9223372036709] := by
  refine ⟨?_, by decide, by decide⟩
  intro i j h
  by_cases hi : i ≤ 2 <;> by_cases hj : j ≤ 2 <;> simp [lateEnv, Time.nanos, hi, hj]
  omega

/-- C7, amended: when the successive clock readings are non-decreasing and the nanosecond
count of each fits in an `int64`, then at every moment of a run of `main` (startup, then any
number of ticks; also when startup aborted) the file parses as the header followed by
data rows whose epoch-milliseconds fields read as integers that never decrease down the
file. -/
theorem millis_nondecreasing (env : Env) (cpu : Query (List CpuInfoStat))
    (host : Query (Option HostInfoStat)) (ticks : List TickInput)
    (hmono : ∀ i j, i ≤ j → (env.now i).nanos ≤ (env.now j).nanos)
    (hfit : ∀ i, minInt64 ≤ (env.now i).nanos ∧ (env.now i).nanos ≤ maxInt64) :
    ∃ (rows : List Row) (ms : List Int),
      parseCSV (mainRun env none cpu host ticks).world.persisted = some (headerRow :: rows) ∧
      rows.map rowMillis = ms.map some ∧
      ms.Pairwise (fun a b => a ≤ b) := by
  obtain ⟨es, he⟩ := traced_mainRun env cpu host ticks
  obtain ⟨_, hparse, _, hms⟩ := trace_file env _ es he
  refine ⟨es.map (Emission.row env), es.map (fun e => millisAt env e.k), hparse, ?_, ?_⟩
  · rw [hms, List.map_map]
    rfl
  · have hk := he.2.1
    rw [List.pairwise_map] at hk ⊢
    exact hk.imp (fun hab => millisAt_mono env hmono hfit _ _ hab)

/-- Witness of the amended C7: the sample clock, one CPU, one tick. -/
theorem millis_nondecreasing_witness :
    (∀ i j : Nat, i ≤ j → (sampleEnv.now i).nanos ≤ (sampleEnv.now j).nanos) ∧
    (∀ i : Nat, minInt64 ≤ (sampleEnv.now i).nanos ∧ (sampleEnv.now i).nanos ≤ maxInt64) ∧
    ∃ (rows : List Row) (ms : List Int),
      parseCSV (mainRun sampleEnv none ⟨[sampleCpu], none⟩ ⟨some sampleHost, none⟩
          [⟨⟨[⟨1⟩], none⟩, ⟨none, some "no memory"⟩⟩]).world.persisted
        = some (headerRow :: rows) ∧
      rows.map rowMillis = ms.map some ∧
      ms.Pairwise (fun a b => a ≤ b) :=
  have h1 : ∀ i j : Nat, i ≤ j → (sampleEnv.now i).nanos ≤ (sampleEnv.now j).nanos := by
    intro i j h
    simp only [sampleEnv, Time.nanos]
    omega
  have h2 : ∀ i : Nat, minInt64 ≤ (sampleEnv.now i).nanos ∧ (sampleEnv.now i).nanos ≤ maxInt64 := by
    intro i
    simp only [sampleEnv, Time.nanos, minInt64, maxInt64]
    omega
  ⟨h1, h2, millis_nondecreasing sampleEnv _ _ _ h1 h2⟩

/-! ### Rows in the file -/

theorem callRows_length (env : Env) : ∀ (cs : List Call) (clock : Nat),
    (callRows env clock cs).length = cs.length := by
  intro cs
  induction cs with
  | nil => intro clock; rfl
  | cons c cs ih =>
    intro clock
    cases c <;> simp [callRows, ih]

theorem callRows_mem (env : Env) : ∀ (cs : List Call) (clock : Nat) (r : Row),
    r ∈ callRows env clock cs → ∃ dt q v u, r = recordRow env dt q v u := by
  intro cs
  induction cs with
  | nil => intro clock r h; simp [callRows] at h
  | cons c cs ih =>
    intro clock r h
    cases c with
    | record q v u =>
      rcases List.mem_cons.mp h with h1 | h1
      · exact ⟨_, q, v, u, h1⟩
      · exact ih _ r h1
    | recordAt dt q v u =>
      rcases List.mem_cons.mp h with h1 | h1
      · exact ⟨dt, q, v, u, h1⟩
      · exact ih _ r h1

theorem callRows_append (env : Env) : ∀ (cs cs2 : List Call) (clock : Nat),
    ∃ c', callRows env clock (cs ++ cs2) = callRows env clock cs ++ callRows env c' cs2 := by
  intro cs
  induction cs with
  | nil => intro cs2 clock; exact ⟨clock, rfl⟩
  | cons c cs ih =>
    intro cs2 clock
    cases c with
    | record q v u =>
      obtain ⟨c', h⟩ := ih cs2 (clock + 1)
      exact ⟨c', by simp [callRows, h]⟩
    | recordAt dt q v u =>
      obtain ⟨c', h⟩ := ih cs2 clock
      exact ⟨c', by simp [callRows, h]⟩

theorem runCalls_onDisk (env : Env) : ∀ (cs : List Call) (w : World) (p : List Char),
    w.onDisk p → (runCalls env cs w).onDisk (p ++ csvText (callRows env w.clock cs)) := by
  intro cs
  induction cs with
  | nil => intro w p h; simpa [runCalls, callRows, csvText] using h
  | cons c cs ih =>
    intro w p h
    cases c with
    | record q v u =>
      obtain ⟨h1, c1, _⟩ := record_onDisk env q v u w p h
      have := ih _ _ h1
      rw [c1] at this
      simpa [runCalls, Call.run, callRows, csvText] using this
    | recordAt dt q v u =>
      obtain ⟨h1, c1, _⟩ := recordWithPredefinedTimeStamp_onDisk env dt q v u w p h
      have := ih _ _ h1
      rw [c1] at this
      simpa [runCalls, Call.run, callRows, csvText] using this

theorem recordRow_ne_headerRow (env : Env) (dt : Time) (q v u : String) :
    recordRow env dt q v u ≠ headerRow := by
  intro h
  have h1 : rowMillis (recordRow env dt q v u) = rowMillis headerRow := by rw [h]
  have h2 : rowMillis (recordRow env dt q v u) = some (Int.tdiv dt.UnixNano 1000000) :=
    parseInt_formatInt _
  have h3 : rowMillis headerRow = none := by decide
  rw [h2, h3] at h1
  exact Option.noConfusion h1

/-- C10: on a sink at rest `recordWithPredefinedTimeStamp` appends one line to the file, the
CSV encoding of its five-field row, and whatever the quantity, value and unit hold (commas,
quotes, line breaks included) that line parses as CSV into exactly one row with exactly the
five original field strings. -/
theorem recorded_line_reads_back (env : Env) (dt : Time) (quantity value unit : String)
    (w : World) (p : List Char) (h : w.onDisk p) :
    (recordWithPredefinedTimeStamp env dt quantity value unit w).onDisk
      (p ++ csvLine [env.timeString dt, formatInt (Int.tdiv dt.UnixNano 1000000),
                     quantity, value, unit]) ∧
    parseCSV (csvLine [env.timeString dt, formatInt (Int.tdiv dt.UnixNano 1000000),
                       quantity, value, unit])
      = some [[env.timeString dt, formatInt (Int.tdiv dt.UnixNano 1000000),
               quantity, value, unit]] := by
  refine ⟨(recordWithPredefinedTimeStamp_onDisk env dt quantity value unit w p h).1, ?_⟩
  have := parseCSV_csvLine_append
    [env.timeString dt, formatInt (Int.tdiv dt.UnixNano 1000000), quantity, value, unit] []
    (by simp)
  simpa [parseCSV, readCSV] using this

/-- Witness of C10: a quantity with a comma and a quote, a value with line breaks, a unit
starting with a space. -/
theorem recorded_line_reads_back_witness :
    World.fresh.onDisk [] ∧
    parseCSV (csvLine [sampleEnv.timeString ⟨1700000000, 5⟩,
        formatInt (Int.tdiv (Time.UnixNano ⟨1700000000, 5⟩) 1000000),
        "load, \"1 min\"", "a\r\nb\nc", " %"])
      = some [[sampleEnv.timeString ⟨1700000000, 5⟩,
        formatInt (Int.tdiv (Time.UnixNano ⟨1700000000, 5⟩) 1000000),
        "load, \"1 min\"", "a\r\nb\nc", " %"]] :=
  ⟨fresh_onDisk,
   (recorded_line_reads_back sampleEnv ⟨1700000000, 5⟩ "load, \"1 min\"" "a\r\nb\nc" " %"
      World.fresh [] fresh_onDisk).2⟩

/-- C5: starting from the freshly created sink, `writeHeader` followed by any finite
sequence `cs` of `record` / `recordWithPredefinedTimeStamp` calls leaves the file holding,
durably and with nothing pending, the header line and then one line per call in call
order: read as CSV it is the header row followed by exactly the rows the calls built, each
of five fields, the header occurring only in front; further calls `cs2` only append.  The
same shape holds for every run of `main` whose file was created. -/
theorem sink_rows_are_emissions (env : Env) (cs cs2 : List Call) :
    ∃ w1, writeHeader World.fresh = some w1 ∧
      (runCalls env cs w1).onDisk (csvText (headerRow :: callRows env 1 cs)) ∧
      parseCSV (runCalls env cs w1).persisted = some (headerRow :: callRows env 1 cs) ∧
      (callRows env 1 cs).length = cs.length ∧
      (∀ r ∈ headerRow :: callRows env 1 cs, r.length = 5) ∧
      headerRow ∉ callRows env 1 cs ∧
      (∃ c', parseCSV (runCalls env (cs ++ cs2) w1).persisted
        = some ((headerRow :: callRows env 1 cs) ++ callRows env c' cs2)) ∧
      (∀ cpu host ticks, ∃ rows,
        parseCSV (mainRun env none cpu host ticks).world.persisted = some (headerRow :: rows) ∧
        (∀ r ∈ rows, r.length = 5) ∧ headerRow ∉ rows) := by
  obtain ⟨w1, e1, h1, c1, _⟩ := writeHeader_onDisk World.fresh [] fresh_onDisk
  have hc : w1.clock = 1 := c1
  have hlen : ∀ (l : List Call) (r : Row), r ∈ headerRow :: callRows env 1 l → r.length = 5 := by
    intro l r hr
    rcases List.mem_cons.mp hr with h | h
    · rw [h]; rfl
    · obtain ⟨dt, q, v, u, rfl⟩ := callRows_mem env l 1 r h
      rfl
  have hdisk : ∀ l : List Call,
      (runCalls env l w1).onDisk (csvText (headerRow :: callRows env 1 l)) := by
    intro l
    have := runCalls_onDisk env l w1 _ h1
    rw [hc] at this
    simpa [csvText] using this
  have hparse : ∀ l : List Call,
      parseCSV (runCalls env l w1).persisted = some (headerRow :: callRows env 1 l) := by
    intro l
    have hp : (runCalls env l w1).persisted = csvText (headerRow :: callRows env 1 l) := by
      simp [World.persisted, (hdisk l).1]
    rw [hp]
    exact parseCSV_csvText _ (fun r hr => by rw [hlen l r hr]; decide)
  refine ⟨w1, e1, hdisk cs, hparse cs, callRows_length env cs 1, hlen cs, ?_, ?_, ?_⟩
  · intro hmem
    obtain ⟨dt, q, v, u, h⟩ := callRows_mem env cs 1 _ hmem
    exact recordRow_ne_headerRow env dt q v u h.symm
  · obtain ⟨c', h⟩ := callRows_append env cs cs2 1
    exact ⟨c', by rw [hparse, h]; rfl⟩
  · intro cpu host ticks
    obtain ⟨es, he⟩ := traced_mainRun env cpu host ticks
    obtain ⟨_, hp, hl, _⟩ := trace_file env _ es he
    refine ⟨_, hp, fun r hr => hl r (List.mem_cons_of_mem _ hr), ?_⟩
    intro hmem
    obtain ⟨e, _, h⟩ := List.mem_map.mp hmem
    exact recordRow_ne_headerRow env _ _ _ _ h

/-! ### The sampling loop and the shutdown -/

theorem runCalls_append (env : Env) : ∀ (a b : List Call) (w : World),
    runCalls env (a ++ b) w = runCalls env b (runCalls env a w) := by
  intro a
  induction a with
  | nil => intro b w; rfl
  | cons c cs ih => intro b w; exact ih b _

theorem utilRecords_eq_runCalls (env : Env) (dt : Time) :
    ∀ (ps : List Float64) (idx : Nat) (w : World),
      utilRecords env dt idx ps w = runCalls env (utilCalls env dt idx ps) w := by
  intro ps
  induction ps with
  | nil => intro idx w; rfl
  | cons x xs ih => intro idx w; exact ih (idx + 1) _

theorem memRecords_eq_runCalls (env : Env) (dt : Time) (vm : Option VirtualMemoryStat)
    (w : World) : memRecords env dt vm w = runCalls env (memCalls env dt vm) w := by
  cases vm <;> rfl

/-- The body of a tick is its prologue followed by its record calls, one at a time. -/
theorem tickBody_eq_runCalls (env : Env) (t : TickInput) (w : World) :
    tickBody env t w = runCalls env (tickCalls env (tickReading env t w) t) (tickPrologue t w) := by
  rw [tickCalls, runCalls_append, ← utilRecords_eq_runCalls, ← memRecords_eq_runCalls]
  rfl

theorem sinkWhole_open_iff (w : World) :
    SinkWhole w 0 ↔ ∃ rows : List Row, w.onDisk (csvText (headerRow :: rows)) ∧
      ∀ r ∈ rows, r.length = 5 := by
  constructor
  · rintro ⟨rows, h1, h2, h3⟩
    exact ⟨rows, ⟨h1, h2⟩, h3⟩
  · rintro ⟨rows, ⟨h1, h2⟩, h3⟩
    exact ⟨rows, h1, h2, h3⟩

theorem sinkWhole_call (env : Env) (c : Call) (w : World) (h : SinkWhole w 0) :
    SinkWhole (c.run env w) 0 := by
  obtain ⟨rows, hd, hl⟩ := (sinkWhole_open_iff w).mp h
  have key : ∀ (w' : World) (r : Row), r.length = 5 →
      w'.onDisk (csvText (headerRow :: rows) ++ csvLine r) → SinkWhole w' 0 := by
    intro w' r hr hw'
    refine (sinkWhole_open_iff w').mpr ⟨rows ++ [r], ?_, ?_⟩
    · rw [← List.cons_append, csvText_snoc]
      exact hw'
    · intro x hx
      rcases List.mem_append.mp hx with h1 | h1
      · exact hl x h1
      · rw [List.mem_singleton.mp h1]; exact hr
  cases c with
  | record q v u =>
    exact key _ (recordRow env (env.now w.clock) q v u) rfl (record_onDisk env q v u w _ hd).1
  | recordAt dt q v u =>
    exact key _ (recordRow env dt q v u) rfl
      (recordWithPredefinedTimeStamp_onDisk env dt q v u w _ hd).1

theorem sinkWhole_tickPrologue (t : TickInput) (w : World) (n : Nat) (h : SinkWhole w n) :
    SinkWhole (tickPrologue t w) n := by
  have e1 : (tickPrologue t w).csvFile = w.csvFile := by
    unfold tickPrologue reportErr
    cases t.vmStat.err <;> cases t.percentage.err <;> rfl
  have e2 : (tickPrologue t w).csvWriter = w.csvWriter := by
    unfold tickPrologue reportErr
    cases t.vmStat.err <;> cases t.percentage.err <;> rfl
  obtain ⟨rows, h1, h2, h3⟩ := h
  exact ⟨rows, e1.trans h1, e2.trans h2, h3⟩

theorem sinkWhole_shutdown (w : World) (h : SinkWhole w 0) :
    ∃ w', shutdownSink w = some w' ∧ SinkWhole w' 1 ∧ w'.persisted = w.persisted := by
  obtain ⟨rows, h1, h2, h3⟩ := h
  have e : shutdownSink w = some
      { w with
        csvWriter := some { buf := [] },
        csvFile := some { persisted := csvText (headerRow :: rows), unsynced := [], closes := 1 },
        stdout := w.stdout ++ ["Ticker stopped"] } := by
    simp [shutdownSink, h2, flush, syncFile, h1, File.closed, File.write, File.sync, File.close]
  refine ⟨_, e, ⟨rows, rfl, rfl, h3⟩, ?_⟩
  simp [World.persisted, h1]

theorem sinkWhole_file (w : World) (n : Nat) (h : SinkWhole w n) :
    w.closes = n ∧ w.pending = [] ∧
    ∃ rows, w.persisted = csvText (headerRow :: rows) ∧ (∀ r ∈ rows, r.length = 5) ∧
      parseCSV w.persisted = some (headerRow :: rows) := by
  obtain ⟨rows, h1, h2, h3⟩ := h
  have hp : w.persisted = csvText (headerRow :: rows) := by simp [World.persisted, h1]
  refine ⟨by simp [World.closes, h1], by simp [World.pending, h1, h2], rows, hp, h3, ?_⟩
  rw [hp]
  apply parseCSV_csvText
  intro r hr
  rcases List.mem_cons.mp hr with h | h
  · rw [h]; decide
  · rw [h3 r h]; decide

theorem inv_start (env : Env) (cpu : Query (List CpuInfoStat))
    (host : Query (Option HostInfoStat)) (w : World) (h : startup env none cpu host = .ok w) :
    Inv (Sys.start w) := by
  have ht := traced_startup env cpu host
  rw [h] at ht
  obtain ⟨es, he⟩ := ht
  refine ⟨?_, ?_, ?_⟩
  · refine (sinkWhole_open_iff w).mpr ⟨es.map (Emission.row env), he.1, ?_⟩
    intro r hr
    obtain ⟨e, _, rfl⟩ := List.mem_map.mp hr
    rfl
  · simp [Sys.start]
  · simp [Sys.start]

theorem inv_step (env : Env) (s s' : Sys) (hi : Inv s) (hs : Step env s s') : Inv s' := by
  obtain ⟨hsink, hstop, htick⟩ := hi
  cases hs with
  | fire h => exact ⟨hsink, hstop, fun hm => by simpa using htick hm⟩
  | takeTick t hl hq =>
    have hm : ¬ (s.main = .closing ∨ s.main = .exited) := fun hm => by
      have := hstop.mpr hm; rw [hl] at this; exact LoopPc.noConfusion this
    refine ⟨sinkWhole_tickPrologue t _ _ hsink, ?_, htick⟩
    constructor
    · intro h; exact LoopPc.noConfusion h
    · intro h; exact absurd h hm
  | emit c cs hl =>
    have hm : ¬ (s.main = .closing ∨ s.main = .exited) := fun hm => by
      have := hstop.mpr hm; rw [hl] at this; exact LoopPc.noConfusion this
    have hne : s.main ≠ .exited := fun h => hm (Or.inr h)
    have hsink0 : SinkWhole s.world 0 := by simpa [hne] using hsink
    refine ⟨?_, ?_, htick⟩
    · have := sinkWhole_call env c s.world hsink0
      simpa [hne] using this
    · constructor
      · intro h; exact LoopPc.noConfusion h
      · intro h; exact absurd h hm
  | tickDone hl =>
    have hm : ¬ (s.main = .closing ∨ s.main = .exited) := fun hm => by
      have := hstop.mpr hm; rw [hl] at this; exact LoopPc.noConfusion this
    refine ⟨hsink, ?_, htick⟩
    constructor
    · intro h; exact LoopPc.noConfusion h
    · intro h; exact absurd h hm
  | interrupt hm =>
    have hl : s.loop ≠ .stopped := fun h => by
      have := hstop.mp h; rw [hm] at this; simp at this
    refine ⟨by simpa [hm] using hsink, ?_, by simp⟩
    constructor
    · intro h; exact absurd h hl
    · intro h; simp at h
  | stopTicker hm =>
    have hl : s.loop ≠ .stopped := fun h => by
      have := hstop.mp h; rw [hm] at this; simp at this
    refine ⟨by simpa [hm] using hsink, ?_, by simp⟩
    constructor
    · intro h; exact absurd h hl
    · intro h; simp at h
  | handshake hm hl =>
    refine ⟨by simpa [hm] using hsink, by simp, ?_⟩
    intro _
    exact htick (Or.inl hm)
  | close w' hm hw =>
    have hsink0 : SinkWhole s.world 0 := by simpa [hm] using hsink
    obtain ⟨w'', e, hs1, _⟩ := sinkWhole_shutdown s.world hsink0
    rw [e] at hw
    cases hw
    refine ⟨by simpa using hs1, ?_, ?_⟩
    · have := hstop.mpr (Or.inl hm)
      simp [this]
    · intro _
      exact htick (Or.inr (Or.inl hm))

theorem inv_reachable (env : Env) (s : Sys) (h : Reachable env s) : Inv s := by
  induction h with
  | start cpu host w hw => exact inv_start env cpu host w hw
  | step s s' _ hs ih => exact inv_step env s s' ih hs

/-- C9: in every state reachable in the step relation of the sampling goroutine and the
interrupt handling,
* once the loop is STOPPED every further step leaves it STOPPED and leaves the file
  content as it is (no tick is taken, no record is made);
* the file is closed only when the loop is STOPPED and `main` has returned, and from then
  on no step is possible at all (nothing is written after the close);
* `Close` has succeeded at most once, and exactly once when `main` has returned;
* when `main` has completed the send on `done` the close step can be taken;
* nothing is pending between steps and the durable text is the header line followed by
  whole five-field rows, so the closed file ends with a complete row. -/
theorem stopped_loop_then_single_close (env : Env) (s : Sys) (h : Reachable env s) :
    (s.loop = .stopped → ∀ s', Step env s s' →
      s'.loop = .stopped ∧ s'.world.persisted = s.world.persisted) ∧
    (0 < s.world.closes → s.loop = .stopped ∧ s.main = .exited ∧ ∀ s', ¬ Step env s s') ∧
    s.world.closes ≤ 1 ∧
    (s.main = .exited ↔ s.world.closes = 1) ∧
    (s.main = .closing → ∃ s', Step env s s') ∧
    s.world.pending = [] ∧
    ∃ rows, s.world.persisted = csvText (headerRow :: rows) ∧ (∀ r ∈ rows, r.length = 5) ∧
      parseCSV s.world.persisted = some (headerRow :: rows) := by
  obtain ⟨hsink, hstop, htick⟩ := inv_reachable env s h
  obtain ⟨hcl, hpend, hrows⟩ := sinkWhole_file _ _ hsink
  have hex : s.main = .exited ↔ s.world.closes = 1 := by
    rw [hcl]
    by_cases hm : s.main = .exited <;> simp [hm]
  have hle : s.world.closes ≤ 1 := by
    rw [hcl]
    by_cases hm : s.main = .exited <;> simp [hm]
  refine ⟨?_, ?_, hle, hex, ?_, hpend, hrows⟩
  · intro hl s' hs
    have hm := hstop.mp hl
    cases hs with
    | fire _ => exact ⟨hl, rfl⟩
    | takeTick t hr _ => rw [hl] at hr; exact LoopPc.noConfusion hr
    | emit c cs hr => rw [hl] at hr; exact LoopPc.noConfusion hr
    | tickDone hr => rw [hl] at hr; exact LoopPc.noConfusion hr
    | interrupt hw => rw [hw] at hm; simp at hm
    | stopTicker hw => rw [hw] at hm; simp at hm
    | handshake _ hr => rw [hl] at hr; exact LoopPc.noConfusion hr
    | close w' hc hw =>
      have hsink0 : SinkWhole s.world 0 := by simpa [hc] using hsink
      obtain ⟨w'', e, _, hp⟩ := sinkWhole_shutdown s.world hsink0
      rw [e] at hw
      cases hw
      exact ⟨hl, hp⟩
  · intro hpos
    have hm : s.main = .exited := hex.mpr (by omega)
    have hl : s.loop = .stopped := hstop.mpr (Or.inr hm)
    refine ⟨hl, hm, ?_⟩
    intro s' hs
    cases hs with
    | fire hf => rw [htick (Or.inr (Or.inr hm))] at hf; exact Bool.noConfusion hf
    | takeTick t hr _ => rw [hl] at hr; exact LoopPc.noConfusion hr
    | emit c cs hr => rw [hl] at hr; exact LoopPc.noConfusion hr
    | tickDone hr => rw [hl] at hr; exact LoopPc.noConfusion hr
    | interrupt hw => rw [hm] at hw; exact MainPc.noConfusion hw
    | stopTicker hw => rw [hm] at hw; exact MainPc.noConfusion hw
    | handshake hw _ => rw [hm] at hw; exact MainPc.noConfusion hw
    | close w' hc _ => rw [hm] at hc; exact MainPc.noConfusion hc
  · intro hc
    have hsink0 : SinkWhole s.world 0 := by simpa [hc] using hsink
    obtain ⟨w', e, _, _⟩ := sinkWhole_shutdown s.world hsink0
    exact ⟨_, Step.close s w' hc e⟩

theorem sampleFinalSys_reachable : Reachable sampleEnv sampleFinalSys := by
  have h0 : Reachable sampleEnv (Sys.start sampleStart) :=
    Reachable.start ⟨[], none⟩ ⟨some sampleHost, none⟩ sampleStart (by decide)
  have h1 := Reachable.step _ _ h0 (Step.interrupt _ rfl)
  have h2 := Reachable.step _ _ h1 (Step.stopTicker _ rfl)
  have h3 := Reachable.step _ _ h2 (Step.handshake _ rfl rfl)
  have h4 := Reachable.step _ _ h3 (Step.close _ sampleFinal rfl (by decide))
  exact h4

/-- Witness of C9: the sample run, interrupted before the first tick and shut down; its
file was closed once. -/
theorem stopped_loop_then_single_close_witness :
    Reachable sampleEnv sampleFinalSys ∧
    (sampleFinalSys.main = .exited ↔ sampleFinalSys.world.closes = 1) ∧
    sampleFinalSys.world.closes = 1 :=
  ⟨sampleFinalSys_reachable,
   (stopped_loop_then_single_close sampleEnv sampleFinalSys sampleFinalSys_reachable).2.2.2.1,
   by decide⟩

/-! ### Sample evaluations -/

theorem parseCSV_sample :
    parseCSV "a,\"b \"\"x\"\"\r\nc\",,d\r\n\n1,2\n".data
      = some [["a", "b \"x\"\r\nc", "", "d"], ["1", "2"]] ∧
    parseCSV "a\"b\n".data = none ∧
    parseCSV "a,b".data = some [["a", "b"]] ∧
    parseCSV (csvLine ["a,b", "x\"y", " z", "", "\\."])
      = some [["a,b", "x\"y", " z", "", "\\."]] := by
  decide

theorem formatInt_sample :
    formatInt 1700000000123 = "1700000000123" ∧ formatInt (-45) = "-45" ∧ formatInt 0 = "0" ∧
    parseInt "1700000000123" = some 1700000000123 ∧ parseInt "-45" = some (-45) ∧
    parseInt "" = none ∧ parseInt "-" = none ∧ parseInt "1x" = none := by
  decide

theorem csvLine_sample :
    csvLine ["a,b", "x\"y", " z", "", "\\."] = "\"a,b\",\"x\"\"y\",\" z\",,\"\\.\"\n".data := by
  decide

end SysStatsRecorder
